import Mathlib

/-!
Verification development for the Hadros SQL query-builder core
(src/utils.ts, src/sqlString.ts, src/query.ts, src/expr.ts, src/messages.ts).

The TypeScript sources are shallowly embedded: every string-producing
function is translated to a Lean function on `List Char` / `String`,
JavaScript runtime values that can appear in conditions, payloads and
template-value lists are modelled by the inductive `JsVal`, and the mutable
`QueryBuilder` / `Expression` classes become explicit state records with
methods of type `state → Except (String × state) state` (the error carries
the state at the moment of the throw, because some methods mutate fields
before a later assertion fires).  JavaScript `assert(cond, msg)` becomes an
`Except.error` branch.
-/

namespace Hadros

/-- ASCII whitespace recognised by the embedding of JS `String.prototype.trim`
(the sources only ever trim ordinary spaces). -/
def isJsSpace (c : Char) : Bool :=
  c == ' ' || c == '\t' || c == '\n' || c == '\r'

def jsTrimChars (l : List Char) : List Char :=
  ((l.dropWhile isJsSpace).reverse.dropWhile isJsSpace).reverse

/-- Embedding of JS `String.prototype.trim` as used by the sources. -/
def jsTrim (s : String) : String := String.mk (jsTrimChars s.data)

/-- Character escaping table of sqlString.ts (`CHARS_ESCAPE_MAP`). -/
def escChar (c : Char) : List Char :=
  if c = Char.ofNat 0 then ['\\', '0']
  else if c = Char.ofNat 8 then ['\\', 'b']
  else if c = '\t' then ['\\', 't']
  else if c = '\n' then ['\\', 'n']
  else if c = '\r' then ['\\', 'r']
  else if c = Char.ofNat 26 then ['\\', 'Z']
  else if c = '\"' then ['\\', '\"']
  else if c = '\'' then ['\\', '\'']
  else if c = '\\' then ['\\', '\\']
  else [c]

/-- sqlString.ts `escapeString`: escape SQL-significant characters and wrap
the result in single quotes. -/
def escapeString (s : String) : String :=
  String.mk ('\'' :: s.data.flatMap escChar ++ ['\''])

/-- One character of sqlString.ts `escapeId` (non-`forbidQualified` path):
backticks are doubled and `.` becomes a quoted qualifier boundary. -/
def escIdChar (c : Char) : List Char :=
  if c = '`' then ['`', '`'] else if c = '.' then ['`', '.', '`'] else [c]

def escapeIdChars (l : List Char) : List Char :=
  '`' :: l.flatMap escIdChar ++ ['`']

/-- utils.ts `sqlEscapeId` on a string value: sqlString.ts `escapeId` with
`forbidQualified` absent (qualified names are split at dots). -/
def sqlEscapeId (s : String) : String := String.mk (escapeIdChars s.data)

/-- JavaScript runtime values as they flow through conditions, update/insert
payloads and template-value lists.  `builder` stands for any object with a
`build()` method (a `QueryBuilder` or `Expression`), abstracted by the SQL
string its `build()` returns. -/
inductive JsVal where
  | null
  | undef
  | bool (b : Bool)
  | num (n : Int)
  | str (s : String)
  | arr (xs : List JsVal)
  | obj (fields : List (String × JsVal))
  | builder (sql : String)
deriving Repr

mutual

/-- JS `String(v)` coercion (used by template-literal interpolation and by
`escapeId` on non-string input).  Arrays join their elements with `,`
(`Array.prototype.toString`); plain objects and class instances print as
`[object Object]`. -/
def jsString : JsVal → String
  | .null => "null"
  | .undef => "undefined"
  | .bool true => "true"
  | .bool false => "false"
  | .num n => toString n
  | .str s => s
  | .arr xs => jsStringList xs
  | .obj _ => "[object Object]"
  | .builder _ => "[object Object]"
termination_by structural v => v

/-- JS `Array.prototype.toString`: elements joined with bare commas. -/
def jsStringList : List JsVal → String
  | [] => ""
  | [v] => jsString v
  | v :: rest => jsString v ++ "," ++ jsStringList rest
termination_by structural l => l

end

mutual

/-- sqlString.ts `escape(val, stringifyObjects, timeZone)` (timezone and
Date handling are not exercised by the sources under verification).  A
`builder` value is a class instance whose only enumerable own property is
`_data` (an object), so the non-stringify object path renders it through
`objectToValues`. -/
def escapeVal : Bool → JsVal → String
  | _, .null => "NULL"
  | _, .undef => "NULL"
  | _, .bool true => "true"
  | _, .bool false => "false"
  | _, .num n => toString n
  | _, .str s => escapeString s
  | _, .arr xs => escList xs
  | stringify, .obj fs =>
    if stringify then escapeString "[object Object]" else escPairs fs
  | stringify, .builder _ =>
    if stringify then escapeString "[object Object]"
    else sqlEscapeId "_data" ++ " = " ++ escapeString "[object Object]"
termination_by structural _ v => v

/-- sqlString.ts `arrayToList`: nested arrays become parenthesised tuples,
other elements are escaped with `stringifyObjects = true`. -/
def escList : List JsVal → String
  | [] => ""
  | [.arr xs] => "(" ++ escList xs ++ ")"
  | [v] => escapeVal true v
  | .arr xs :: rest => "(" ++ escList xs ++ ")" ++ ", " ++ escList rest
  | v :: rest => escapeVal true v ++ ", " ++ escList rest
termination_by structural l => l

/-- sqlString.ts `objectToValues` (no function-valued properties exist in
the model, so nothing is skipped). -/
def escPairs : List (String × JsVal) → String
  | [] => ""
  | [(k, v)] => sqlEscapeId k ++ " = " ++ escapeVal true v
  | (k, v) :: rest =>
    sqlEscapeId k ++ " = " ++ escapeVal true v ++ ", " ++ escPairs rest
termination_by structural l => l

end

/-- utils.ts `sqlEscape`: sqlString.ts `escape` with `stringifyObjects`
absent. -/
def sqlEscape (v : JsVal) : String := escapeVal false v

mutual

/-- sqlString.ts `escapeId` on an arbitrary value: arrays map element-wise
(comma-joined), anything else is `String(val)` with backticks doubled and
dots split. -/
def escapeIdVal : JsVal → String
  | .arr xs => escapeIdList xs
  | v => String.mk (escapeIdChars (jsString v).data)
termination_by structural v => v

/-- Element-wise `escapeId` over an array, comma-joined. -/
def escapeIdList : List JsVal → String
  | [] => ""
  | [v] => escapeIdVal v
  | v :: rest => escapeIdVal v ++ ", " ++ escapeIdList rest
termination_by structural l => l

end

theorem dropWhile_len_le {α : Type} (p : α → Bool) (l : List α) :
    (l.dropWhile p).length ≤ l.length := by
  induction l with
  | nil => simp [List.dropWhile]
  | cons c r ih =>
    by_cases h : p c <;> simp [List.dropWhile, h] <;> omega

/-- Error text of utils.ts `sqlFormat` for a `???` placeholder bound to a
value that is neither a string nor a builder (template-literal interpolation
coerces the value with `String(v)`). -/
def msgFmtTriple (i : Nat) (v : JsVal) : String :=
  "sqlFormat: values[" ++ toString i ++
    "] for ??? must be a string or QueryBuilder instance but got " ++ jsString v

/-- The first-stage callback of utils.ts `sqlFormat` applied to one complete
maximal `?` run: the run of exactly three consumes `values[index]`, which
must be a string (spliced) or a builder (its `build()` output
parenthesised) and is removed from the value list (`splice` + `index--`);
every other run is left in place and advances `index`.  Returns the
replacement text, the remaining values and the next index. -/
def flushRun (run : Nat) (vs : List JsVal) (i : Nat) :
    Except String (List Char × List JsVal × Nat) :=
  if run = 0 then .ok ([], vs, i)
  else if run = 3 then
    match vs.get? i with
    | some (.str s) => .ok (s.data, vs.eraseIdx i, i)
    | some (.builder q) => .ok ('(' :: (q.data ++ [')']), vs.eraseIdx i, i)
    | some v => .error (msgFmtTriple i v)
    | none => .error (msgFmtTriple i .undef)
  else .ok (List.replicate run '?', vs, i + 1)

/-- First stage of utils.ts `sqlFormat`: `tpl.replace(/\?+/g, ...)` as a
left-to-right scan; `run` counts the question marks of the pending maximal
run, flushed through `flushRun` at the first non-`?` character (or at the
end of the template).  Returns the rewritten template and the remaining
values. -/
def fmt1go : List Char → Nat → List JsVal → Nat →
    Except String (List Char × List JsVal)
  | [], run, vs, i => (flushRun run vs i).map fun p => (p.1, p.2.1)
  | c :: r, run, vs, i =>
    if c = '?' then fmt1go r (run + 1) vs i
    else
      match flushRun run vs i with
      | .error m => .error m
      | .ok (t, vs2, i2) =>
        (fmt1go r 0 vs2 i2).map fun p => (t ++ c :: p.1, p.2)

def fmt1 (l : List Char) (vs : List JsVal) (i : Nat) :
    Except String (List Char × List JsVal) := fmt1go l 0 vs i

/-- Second stage of utils.ts `sqlFormat`: sqlString.ts `format` run over the
spliced template, as the same left-to-right run scan.  While values remain,
a `?` run escapes the next value, `??` identifier-escapes it, and runs
longer than two are kept without consuming a value; once the values are
exhausted the rest of the text (the pending run included) is kept
literally. -/
def fmt2go : List Char → Nat → List JsVal → List Char
  | l, run, [] => List.replicate run '?' ++ l
  | [], run, v :: _ =>
    if run > 2 then List.replicate run '?'
    else if run = 2 then (escapeIdVal v).data
    else if run = 1 then (sqlEscape v).data
    else []
  | c :: r, run, v :: vs =>
    if c = '?' then fmt2go r (run + 1) (v :: vs)
    else if run > 2 then List.replicate run '?' ++ c :: fmt2go r 0 (v :: vs)
    else if run = 2 then (escapeIdVal v).data ++ c :: fmt2go r 0 vs
    else if run = 1 then (sqlEscape v).data ++ c :: fmt2go r 0 vs
    else c :: fmt2go r 0 (v :: vs)

def fmt2 (l : List Char) (vs : List JsVal) : List Char := fmt2go l 0 vs

/-- utils.ts `sqlFormat(tpl, values)`: the `???`-splicing pass followed by
sqlString.ts `format` on the spliced text with the remaining values. -/
def sqlFormat (tpl : String) (values : List JsVal) : Except String String :=
  (fmt1 tpl.data values 0).map fun p => String.mk (fmt2 p.1 p.2)

/-- Character class `[\w$]` of the named-placeholder regex. -/
def isWordChar (c : Char) : Bool := c.isAlphanum || c == '_' || c == '$'

/-- Split off a maximal run of `:` characters. -/
def takeColons : List Char → Nat × List Char
  | [] => (0, [])
  | c :: r => if c = ':' then ((takeColons r).1 + 1, (takeColons r).2) else (0, c :: r)

theorem takeColons_len : ∀ l : List Char, (takeColons l).2.length ≤ l.length := by
  intro l
  induction l with
  | nil => simp [takeColons]
  | cons c r ih =>
    by_cases h : c = ':' <;> simp [takeColons, h] <;> omega

/-- utils.ts `sqlFormatObject(sql, values, disable$)`: replacement of
`:name` (escaped value), `::name` (escaped identifier) and `:::name`
(string spliced verbatim, builder output parenthesised, anything else a
hard error).  A key absent from `values` leaves the matched text untouched;
with `dollarDisable` every present key is substituted by its raw value
coerced to a string. -/
def fmtObj (vals : List (String × JsVal)) (dollarDisable : Bool) :
    List Char → Except String (List Char)
  | [] => .ok []
  | c :: r =>
    if c = ':' then
      let k := (takeColons r).1
      let r2 := (takeColons r).2
      let w := r2.takeWhile isWordChar
      let r3 := r2.dropWhile isWordChar
      if k ≤ 2 ∧ w ≠ [] then
        let name := String.mk w
        match List.lookup name vals with
        | some v =>
          if dollarDisable then
            (fmtObj vals dollarDisable r3).map fun t => (jsString v).data ++ t
          else if k = 1 then
            (fmtObj vals dollarDisable r3).map fun t => (escapeIdVal v).data ++ t
          else if k = 2 then
            match v with
            | .str s => (fmtObj vals dollarDisable r3).map fun t => s.data ++ t
            | .builder q =>
              (fmtObj vals dollarDisable r3).map fun t =>
                '(' :: (q.data ++ ')' :: t)
            | _ =>
              .error ("sqlFormatObject: value for :::" ++ name ++
                " must be a string or QueryBuilder instance but got " ++ jsString v)
          else
            (fmtObj vals dollarDisable r3).map fun t => (sqlEscape v).data ++ t
        | none =>
          (fmtObj vals dollarDisable r3).map fun t =>
            ':' :: (List.replicate k ':' ++ w ++ t)
      else
        (fmtObj vals dollarDisable r).map fun t => ':' :: t
    else
      (fmtObj vals dollarDisable r).map fun t => c :: t
termination_by l => l.length
decreasing_by
  all_goals simp only [List.length_cons]
  all_goals (first
    | omega
    | (have h1 := takeColons_len r
       have h2 := dropWhile_len_le isWordChar (takeColons r).2
       omega))

/-- utils.ts `sqlFormatObject` at the `String` level. -/
def sqlFormatObject (sql : String) (vals : List (String × JsVal))
    (dollarDisable : Bool := false) : Except String String :=
  (fmtObj vals dollarDisable sql.data).map String.mk

/-- utils.ts `sqlLimitString(offset, limit)`. -/
def sqlLimitString (offset limit : Int) : String :=
  if limit > 0 then
    if offset > 0 then "LIMIT " ++ toString offset ++ "," ++ toString limit
    else "LIMIT " ++ toString limit
  else "LIMIT " ++ toString offset ++ ",18446744073709551615"

/-- utils.ts `joinMultiString`: trim each part, drop the empty ones, join
with single spaces. -/
def joinMultiString (strs : List String) : String :=
  String.intercalate " " ((strs.map jsTrim).filter fun v => v ≠ "")

/-- Whether a `JsVal` is the JS `undefined` marker. -/
def isUndefVal : JsVal → Bool
  | .undef => true
  | _ => false

/-- utils.ts `findKeysForUndefinedValue`. -/
def findKeysForUndefinedValue (data : List (String × JsVal)) : List String :=
  (data.filter fun p => isUndefVal p.2).map fun p => p.1

/-- Substring test used for the " as " check of `formatFields`
(JS `indexOf(...) !== -1`). -/
def containsSub (l pat : List Char) : Bool :=
  l.tails.any fun t => pat.isPrefixOf t

/-- One field of utils.ts `formatFields`: `*` gets the bare prefix glued on,
text containing " as " (case-insensitively) is kept as-is, text already
starting with a backtick is only prefixed, everything else is
identifier-escaped and prefixed. -/
def formatFieldsOne (pfx : String) (n : String) : String :=
  if n = "*" then pfx ++ "*"
  else if containsSub (n.data.map Char.toLower) " as ".data then n
  else if n.data.head? = some '`' then pfx ++ n
  else pfx ++ sqlEscapeId n

/-- utils.ts `formatFields(table, fields)`. -/
def formatFields (table : String) (fields : List String) : List String :=
  let pfx := if table = "" then "" else table ++ "."
  fields.map (formatFieldsOne pfx)

namespace Messages

/-- messages.ts `conditionCannotBeEmpty`. -/
def conditionCannotBeEmpty : String :=
  "Condition for modification operation cannot be empty"

/-- messages.ts `functionWithWrongRowCount`. -/
def functionWithWrongRowCount (functionName : String) (numberInsertedRows : Nat) :
    String :=
  functionName ++ "() must have inserted one row, but actually inserted " ++
    toString numberInsertedRows ++ " rows"

/-- messages.ts `undefinedValueConditionalKeys` (the JS template literal
joins the key array with bare commas). -/
def undefinedValueConditionalKeys (keys : List String) : String :=
  "Found undefined value for condition keys " ++ String.intercalate "," keys ++
    "; it may cause unexpected errors"

end Messages

/-- Key test of `isPureConditionObject`: JS `v[0] === "$"`. -/
def isDollarKey (s : String) : Bool := s.data.head? = some '$'

/-- utils.ts `sqlConditionStrings` inner `isPureConditionObject`: a
non-null object value all of whose (at least one) keys start with `$`.
Arrays have numeric keys and builders the key `_data`, so neither
qualifies. -/
def isPureConditionObject : JsVal → Bool
  | .obj fs => fs.length > 0 && fs.all fun p => isDollarKey p.1
  | _ => false

/-- One operator entry of utils.ts `sqlConditionStrings` (the body of the
`Object.keys(info).forEach` switch). -/
def condOp (name escapedName : String) (op : String) (v : JsVal) :
    Except String (List String) :=
  if op = "$isNull" then
    match v with
    | .bool true => .ok [escapedName ++ " IS NULL"]
    | _ => .error "value of $isNull property must be true"
  else if op = "$isNotNull" then
    match v with
    | .bool true => .ok [escapedName ++ " IS NOT NULL"]
    | _ => .error "value of $isNotNull property must be true"
  else if op = "$lt" then .ok [escapedName ++ "<" ++ sqlEscape v]
  else if op = "$lte" then .ok [escapedName ++ "<=" ++ sqlEscape v]
  else if op = "$gt" then .ok [escapedName ++ ">" ++ sqlEscape v]
  else if op = "$gte" then .ok [escapedName ++ ">=" ++ sqlEscape v]
  else if op = "$eq" then .ok [escapedName ++ "=" ++ sqlEscape v]
  else if op = "$ne" then .ok [escapedName ++ "<>" ++ sqlEscape v]
  else if op = "$in" then
    match v with
    | .builder q => .ok [escapedName ++ " IN (" ++ q ++ ")"]
    | .arr xs =>
      let line := escapedName ++ " IN (" ++
        String.intercalate ", " (xs.map sqlEscape) ++ ")"
      if xs.length > 0 then .ok [line]
      else .ok ["0 /* empty list warn: " ++ line ++ " */"]
    | _ => .error ("value for condition type $in in field " ++ name ++
        " must be an array")
  else if op = "$notIn" then
    match v with
    | .builder q => .ok [escapedName ++ " NOT IN (" ++ q ++ ")"]
    | .arr xs =>
      let line := escapedName ++ " NOT IN (" ++
        String.intercalate ", " (xs.map sqlEscape) ++ ")"
      if xs.length > 0 then .ok [line]
      else .ok ["1 /* empty list warn: " ++ line ++ " */"]
    | _ => .error ("value for condition type $notIn in field " ++ name ++
        " must be an array")
  else if op = "$like" then
    match v with
    | .str s => .ok [escapedName ++ " LIKE " ++ sqlEscape (.str s)]
    | _ => .error ("value for condition type $like in " ++ name ++
        " must be a string")
  else if op = "$notLike" then
    match v with
    | .str s => .ok [escapedName ++ " NOT LIKE " ++ sqlEscape (.str s)]
    | _ => .error ("value for condition type $notLike in " ++ name ++
        " must be a string")
  else if op = "$raw" then .ok [escapedName ++ "=" ++ jsString v]
  else .error ("condition type " ++ op ++ " does not supported")

/-- All operator entries of one field, in key order. -/
def condOps (name escapedName : String) :
    List (String × JsVal) → Except String (List String)
  | [] => .ok []
  | (op, v) :: rest => do
    let x ← condOp name escapedName op v
    let y ← condOps name escapedName rest
    .ok (x ++ y)

/-- One field of utils.ts `sqlConditionStrings`: an operator object compiles
through its keys, any other value becomes an equality against the escaped
value. -/
def condField (name : String) (info : JsVal) : Except String (List String) :=
  if isPureConditionObject info then
    match info with
    | .obj fs => condOps name (sqlEscapeId name) fs
    | _ => .ok []
  else .ok [sqlEscapeId name ++ "=" ++ sqlEscape info]

/-- utils.ts `sqlConditionStrings(condition)`. -/
def sqlConditionStrings (condition : List (String × JsVal)) :
    Except String (List String) :=
  (condition.mapM fun p => condField p.1 p.2).map List.flatten

/-- One field of utils.ts `sqlUpdateString`.  An object with exactly one key
goes through the `$incr`/`$decr`/`$raw` switch (a one-element array has the
single key `0`, a builder the single key `_data`, so both fall into the
switch default and error out); everything else renders as an equality. -/
def updField (name : String) (info : JsVal) : Except String String :=
  let e := sqlEscapeId name
  match info with
  | .obj [(op, v)] =>
    if op = "$incr" then .ok (e ++ "=" ++ e ++ "+(" ++ sqlEscape v ++ ")")
    else if op = "$decr" then .ok (e ++ "=" ++ e ++ "-(" ++ sqlEscape v ++ ")")
    else if op = "$raw" then .ok (e ++ "=" ++ jsString v)
    else .error ("update type " ++ op ++ " does not supported")
  | .arr [_] => .error "update type 0 does not supported"
  | .builder _ => .error "update type _data does not supported"
  | _ => .ok (e ++ "=" ++ sqlEscape info)

/-- utils.ts `sqlUpdateString(data)`. -/
def sqlUpdateString (data : List (String × JsVal)) : Except String String :=
  (data.mapM fun p => updField p.1 p.2).map (String.intercalate ", ")

/-- The optional second argument of `format`, `where`/`and`, `set`, `on`,
`orderBy`, `having` and `sql`: absent, a positional array, or a named
object. -/
inductive FmtArgs where
  | none
  | pos (values : List JsVal)
  | named (values : List (String × JsVal))

/-- query.ts / expr.ts `format(tpl, values)`: absent values return the
template untouched, an array goes through `sqlFormat`, an object through
`sqlFormatObject`. -/
def formatTpl (tpl : String) (args : FmtArgs) : Except String String :=
  match args with
  | .none => .ok tpl
  | .pos vs => sqlFormat tpl vs
  | .named vs => sqlFormatObject tpl vs

/-- Call sites that pass `values || []` replace an absent argument by an
empty positional array before formatting. -/
def orEmptyArr : FmtArgs → FmtArgs
  | .none => .pos []
  | a => a

/-- expr.ts `Expression` state: the accumulated text buffer and the type
tag (`""` until the first condition, then `"condition"`). -/
structure Expression where
  eType : String := ""
  eData : String := ""
deriving Repr

/-- A condition argument accepted by `Expression.and`/`or`: a template
string (with optional values) or a condition mapping. -/
inductive ExprCond where
  | str (tpl : String) (args : FmtArgs)
  | map (fields : List (String × JsVal))

/-- expr.ts `Expression.combineCondition(connector, condition, values)`.
Note that a condition mapping is handed to `sqlConditionStrings` unmodified
(no top-level `$raw` extraction) and the resulting fragment array is
interpolated into a template literal, joining with bare commas. -/
def combineCondition (connector : String) (cond : ExprCond) (e : Expression) :
    Except String Expression :=
  if e.eType ≠ "" ∧ e.eType ≠ "condition" then
    .error ("Cannot change expression type: " ++ e.eType)
  else
    match cond with
    | .str tpl args =>
      if tpl = "" then .error "Missing condition"
      else
        (formatTpl tpl (orEmptyArr args)).map fun s =>
          { eType := "condition", eData := e.eData ++ " " ++ connector ++ " " ++ s }
    | .map fs =>
      let keys := findKeysForUndefinedValue fs
      if keys ≠ [] then .error (Messages.undefinedValueConditionalKeys keys)
      else
        (sqlConditionStrings fs).map fun l =>
          { eType := "condition",
            eData := e.eData ++ " " ++ connector ++ " " ++ String.intercalate "," l }

/-- expr.ts `Expression.and`. -/
def exprAnd (e : Expression) (cond : ExprCond) : Except String Expression :=
  combineCondition "AND" cond e

/-- expr.ts `Expression.or`. -/
def exprOr (e : Expression) (cond : ExprCond) : Except String Expression :=
  combineCondition "OR" cond e

/-- expr.ts `Expression.build`: trim, strip one leading `AND ` then one
leading `OR `, parenthesise; empty state is a hard error. -/
def exprBuild (e : Expression) : Except String String :=
  let str := jsTrim e.eData
  if str = "" then .error "Expression cannot be empty"
  else
    let s1 := if "AND ".data.isPrefixOf str.data then String.mk (str.data.drop 4)
              else str
    let s2 := if "OR ".data.isPrefixOf s1.data then String.mk (s1.data.drop 3)
              else s1
    .ok ("(" ++ s2 ++ ")")

/-- One entry of `_data.joinTables` in query.ts. -/
structure JoinEntry where
  table : String
  fields : List String
  type : String
  onCond : String
  aliasName : String
deriving Repr

/-- The `_data` record of query.ts `QueryBuilder` (the unused `delete`
member is omitted; `sql` is the rendered CUSTOM statement cache). -/
structure BuilderData where
  tableName : Option String := Option.none
  tableNameEscaped : Option String := Option.none
  fields : List String := []
  conditions : List String := []
  type : String := ""
  update : List String := []
  insert : String := ""
  insertRows : Nat := 0
  sql : String := ""
  sqlTpl : String := ""
  sqlValues : List JsVal := []
  orderFields : String := ""
  orderBy : String := ""
  groupBy : String := ""
  offsetRows : Int := 0
  limitRows : Int := 0
  limit : String := ""
  mapTableToAlias : List (String × String) := []
  mapAliasToTable : List (String × String) := []
  currentJoinTableName : String := ""
  joinTables : List JoinEntry := []
deriving Repr

/-- Builder methods either return the new state or throw; the error carries
the state at the moment of the throw, because several methods mutate fields
before a later assertion fires (e.g. `insert` sets the query type before
validating its payload). -/
abbrev QRes := Except (String × BuilderData) BuilderData

/-- JS object-property assignment `m[k] = v` on a string map. -/
def objSet (m : List (String × String)) (k v : String) : List (String × String) :=
  if (m.lookup k).isSome then m.map fun p => if p.1 = k then (k, v) else p
  else m ++ [(k, v)]

/-- JS truthy lookup `m[k]` (a registered empty-string value is falsy, like
an absent key). -/
def lookupTruthy (m : List (String × String)) (k : String) : Option String :=
  match m.lookup k with
  | some v => if v = "" then Option.none else some v
  | Option.none => Option.none

/-- query.ts `table`/`from`/`into`: write-once table name (an empty string
is falsy, so it does not lock the name). -/
def qTable (d : BuilderData) (tableName : String) : QRes :=
  match d.tableName with
  | some t =>
    if t ≠ "" then
      .error ("Cannot change table name after it's set to \"" ++ t ++ "\"", d)
    else
      .ok { d with tableName := some tableName,
                   tableNameEscaped := some (sqlEscapeId tableName) }
  | Option.none =>
    .ok { d with tableName := some tableName,
                 tableNameEscaped := some (sqlEscapeId tableName) }

/-- query.ts `setTableAlias`: an alias name may be registered only once. -/
def setTableAlias (d : BuilderData) (tableName aliasName : String) : QRes :=
  if (d.mapAliasToTable.lookup aliasName).isSome then
    .error ("Alias name \"" ++ aliasName ++ "\" is already registered.", d)
  else
    .ok { d with mapAliasToTable := objSet d.mapAliasToTable aliasName tableName,
                 mapTableToAlias := objSet d.mapTableToAlias tableName aliasName }

/-- query.ts `addJoinTable`. -/
def addJoinTable (d : BuilderData) (tableName joinType : String)
    (fields : List String) : QRes :=
  .ok { d with currentJoinTableName := tableName,
               joinTables := d.joinTables ++
                 [{ table := tableName, fields := fields, type := joinType,
                    onCond := "", aliasName := "" }] }

/-- query.ts `join`. -/
def qJoin (d : BuilderData) (tableName : String) (fields : List String := []) :
    QRes := addJoinTable d tableName "JOIN" fields

/-- query.ts `leftJoin`. -/
def qLeftJoin (d : BuilderData) (tableName : String) (fields : List String := []) :
    QRes := addJoinTable d tableName "LEFT JOIN" fields

/-- query.ts `rightJoin`. -/
def qRightJoin (d : BuilderData) (tableName : String) (fields : List String := []) :
    QRes := addJoinTable d tableName "RIGHT JOIN" fields

/-- query.ts `as(name)`: alias the current join table if one is pending,
else the primary table, and stamp the alias on the newest join entry.
(When neither a join nor a table name exists, JS would alias the
`undefined` table; that corner is modelled by the string "undefined".) -/
def qAs (d : BuilderData) (name : String) : QRes :=
  let tn := if d.currentJoinTableName ≠ "" then d.currentJoinTableName
            else d.tableName.getD "undefined"
  (setTableAlias d tn name).map fun d1 =>
    if d1.joinTables.length > 0 then
      { d1 with joinTables := d1.joinTables.dropLast ++
          (match d1.joinTables.getLast? with
           | some last => [{ last with aliasName := name }]
           | Option.none => []) }
    else d1

/-- query.ts `on(condition, values = [])`: set the ON text of the newest
join entry, at most once. -/
def qOn (d : BuilderData) (condition : String) (args : FmtArgs := .pos []) :
    QRes :=
  match d.joinTables.getLast? with
  | Option.none => .error ("Missing leftJoin() or rightJoin().", d)
  | some last =>
    if last.onCond ≠ "" then
      .error ("Join condition already registered. Previous condition is \"" ++
        last.onCond ++ "\".", d)
    else
      match formatTpl condition args with
      | .ok s =>
        .ok { d with joinTables := d.joinTables.dropLast ++
                [{ last with onCond := s }] }
      | .error m => .error (m, d)

/-- A condition accepted by query.ts `where`/`and`: a template string with
optional values, an `Expression`, or a condition mapping. -/
inductive WhereArg where
  | strA (tpl : String) (args : FmtArgs)
  | expr (e : Expression)
  | map (fields : List (String × JsVal))

/-- query.ts `and(condition, values)` (and therefore `where`, which
delegates unchanged).  The literal empty string fails the initial
`assert(condition)` with "Missing condition."; a whitespace-only string or
an empty mapping is rejected with the empty-condition message for
non-SELECT types only; a mapping's top-level `$raw` value is pushed as its
own fragment and removed before per-field compilation. -/
def qAnd (d : BuilderData) (cond : WhereArg) : QRes :=
  match cond with
  | .strA tpl args =>
    if tpl = "" then .error ("Missing condition.", d)
    else if d.type ≠ "SELECT" ∧ jsTrim tpl = "" then
      .error (Messages.conditionCannotBeEmpty, d)
    else
      match formatTpl tpl (orEmptyArr args) with
      | .ok s => .ok { d with conditions := d.conditions ++ [s] }
      | .error m => .error (m, d)
  | .expr e =>
    match exprBuild e with
    | .ok s => .ok { d with conditions := d.conditions ++ [s] }
    | .error m => .error (m, d)
  | .map fs =>
    let keys := findKeysForUndefinedValue fs
    if keys ≠ [] then .error (Messages.undefinedValueConditionalKeys keys, d)
    else if d.type ≠ "SELECT" ∧ fs.length = 0 then
      .error (Messages.conditionCannotBeEmpty, d)
    else
      match fs.lookup "$raw" with
      | some v =>
        let d1 := { d with conditions := d.conditions ++ [jsString v] }
        let fs2 := fs.filter fun p => p.1 ≠ "$raw"
        match sqlConditionStrings fs2 with
        | .ok l => .ok { d1 with conditions := d1.conditions ++ l }
        | .error m => .error (m, d1)
      | Option.none =>
        match sqlConditionStrings fs with
        | .ok l => .ok { d with conditions := d.conditions ++ l }
        | .error m => .error (m, d)

/-- query.ts `where` forwards every argument shape to `and`. -/
def qWhere (d : BuilderData) (cond : WhereArg) : QRes := qAnd d cond

/-- Error text of every query-type setter. -/
def cannotChangeMsg (t : String) : String :=
  "cannot change query type after it was set to \"" ++ t ++ "\""

/-- query.ts `fields(...)`: set-at-most-once field list. -/
def qFields (d : BuilderData) (fields : List String) : QRes :=
  if d.fields.length > 0 then
    .error ("cannot change fields after it has been set", d)
  else .ok { d with fields := d.fields ++ formatFields "" fields }

/-- query.ts `select(...fields)`. -/
def qSelect (d : BuilderData) (fields : List String) : QRes :=
  if d.type ≠ "" then .error (cannotChangeMsg d.type, d)
  else
    let d1 := { d with type := "SELECT" }
    if fields.length < 1 then .ok d1 else qFields d1 fields

/-- query.ts `selectDistinct(...fields)`. -/
def qSelectDistinct (d : BuilderData) (fields : List String) : QRes :=
  if d.type ≠ "" then .error (cannotChangeMsg d.type, d)
  else
    let d1 := { d with type := "SELECT DISTINCT" }
    if fields.length = 0 then .error ("distinct expected one or more fields", d1)
    else qFields d1 fields

/-- query.ts `count(name = "count", field = "*")`. -/
def qCount (d : BuilderData) (name : String := "count") (field : String := "*") :
    QRes :=
  if d.type ≠ "" then .error (cannotChangeMsg d.type, d)
  else .ok { d with type := "SELECT",
                    fields := d.fields ++
                      ["COUNT(" ++ field ++ ") AS " ++ sqlEscapeId name] }

/-- The argument of query.ts `set`. -/
inductive SetArg where
  | strU (tpl : String) (args : FmtArgs)
  | mapU (fields : List (String × JsVal))

/-- query.ts `set(update, values)`: requires UPDATE / INSERT_OR_UPDATE type;
a mapping renders through `sqlUpdateString` and an empty rendering pushes
nothing. -/
def qSet (d : BuilderData) (arg : SetArg) : QRes :=
  if d.type ≠ "UPDATE" ∧ d.type ≠ "INSERT_OR_UPDATE" then
    .error ("query type must be UPDATE, please call .update() before", d)
  else
    match arg with
    | .strU tpl args =>
      if tpl = "" then .error ("missing update data", d)
      else
        match formatTpl tpl (orEmptyArr args) with
        | .ok s => .ok { d with update := d.update ++ [s] }
        | .error m => .error (m, d)
    | .mapU fs =>
      match sqlUpdateString fs with
      | .ok s =>
        if s ≠ "" then .ok { d with update := d.update ++ [s] } else .ok d
      | .error m => .error (m, d)

/-- The argument of query.ts `update`. -/
inductive UpdateArg where
  | noArg
  | strU (tpl : String) (args : FmtArgs)
  | mapU (fields : List (String × JsVal))

/-- query.ts `update(update?, values?)`: sets the type, reseeds the
assignment list empty, and forwards a truthy argument to `set` (an empty
template string is falsy and is not forwarded). -/
def qUpdate (d : BuilderData) (arg : UpdateArg) : QRes :=
  if d.type ≠ "" then .error (cannotChangeMsg d.type, d)
  else
    let d1 := { d with type := "UPDATE", update := ([] : List String) }
    match arg with
    | .noArg => .ok d1
    | .strU tpl args => if tpl = "" then .ok d1 else qSet d1 (.strU tpl args)
    | .mapU fs => qSet d1 (.mapU fs)

/-- The argument of query.ts `insert`: one row object or an array of rows. -/
inductive InsertArg where
  | one (row : List (String × JsVal))
  | many (rows : List (List (String × JsVal)))

/-- One rendered row tuple of query.ts `insert`: every column of the first
row must be present (`field in item`); extra keys of `item` are ignored. -/
def insertRowLine (originFields : List String) (item : List (String × JsVal)) :
    Except String String :=
  let cols : Except String (List String) := originFields.mapM fun f =>
    match item.lookup f with
    | some v => Except.ok (sqlEscape v)
    | Option.none =>
      Except.error ("every item of data array must have field \"" ++ f ++ "\"")
  cols.map fun line => "(" ++ String.intercalate ", " line ++ ")"

/-- query.ts `insert(data)`.  The query type is set to INSERT before the
payload is validated, so a failed validation still leaves the type
mutated. -/
def qInsert (d : BuilderData) (arg : InsertArg) : QRes :=
  if d.type ≠ "" then .error (cannotChangeMsg d.type, d)
  else
    let d1 := { d with type := "INSERT" }
    let list := match arg with | .one r => [r] | .many rs => rs
    match arg, list with
    | .many _, [] => .error ("data array must have at least 1 item", d1)
    | _, [] => .error ("data array must have at least 1 item", d1)
    | _, first :: _ =>
      let originFields := first.map fun p => p.1
      match list.mapM (insertRowLine originFields) with
      | .error m => .error (m, d1)
      | .ok values =>
        .ok { d1 with
          insert := "(" ++
            String.intercalate ", " (originFields.map sqlEscapeId) ++
            ") VALUES " ++ String.intercalate ",\n" values,
          insertRows := list.length }

/-- query.ts `delete`. -/
def qDelete (d : BuilderData) : QRes :=
  if d.type ≠ "" then .error (cannotChangeMsg d.type, d)
  else .ok { d with type := "DELETE" }

/-- query.ts `onDuplicateKeyUpdate`: legal only from INSERT with exactly one
inserted row. -/
def qOnDuplicateKeyUpdate (d : BuilderData) : QRes :=
  if d.type ≠ "INSERT" then
    .error ("onDuplicateKeyUpdate() must be called after insert()", d)
  else if d.insertRows ≠ 1 then
    .error (Messages.functionWithWrongRowCount "onDuplicateKeyUpdate"
      d.insertRows, d)
  else .ok { d with type := "INSERT_OR_UPDATE" }

/-- query.ts `sql(sql, values?)`. -/
def qSql (d : BuilderData) (sql : String) (args : FmtArgs := .none) : QRes :=
  if d.type ≠ "" then .error (cannotChangeMsg d.type, d)
  else .ok { d with type := "CUSTOM", sqlTpl := sql,
                    sqlValues := match args with | .pos vs => vs | _ => [] }

/-- Case-insensitive matcher: returns the remaining text after `pat` when
the text starts with `pat` up to `Char.toLower`. -/
def ciMatch (pat l : List Char) : Option (List Char) :=
  match pat, l with
  | [], rest => some rest
  | _ :: _, [] => Option.none
  | p :: ps, c :: cs =>
    if p.toLower = c.toLower then ciMatch ps cs else Option.none

theorem ciMatch_len :
    ∀ (pat l rest : List Char), ciMatch pat l = some rest →
      rest.length ≤ l.length := by
  intro pat
  induction pat with
  | nil => intro l rest h; simp [ciMatch] at h; simp [h]
  | cons p ps ih =>
    intro l rest h
    match l with
    | [] => simp [ciMatch] at h
    | c :: cs =>
      simp only [ciMatch] at h
      by_cases hc : p.toLower = c.toLower
      · simp only [hc, if_pos rfl] at h
        have := ih cs rest h
        simp only [List.length_cons]
        omega
      · simp [hc] at h

/-- Embedding of JS `replace(/pat/gi, rep)` for a literal pattern: scan left
to right, replace each case-insensitive occurrence, never rescanning
replaced text.  The pattern is passed as head and tail so that a match
always consumes at least one character; the scanner recurses on a
character-count fuel so that it stays structurally recursive. -/
def ciReplaceGo (p0 : Char) (ps rep : List Char) : Nat → List Char → List Char
  | _, [] => []
  | 0, l => l
  | fuel + 1, c :: r =>
    if p0.toLower = c.toLower then
      match ciMatch ps r with
      | some rest => rep ++ ciReplaceGo p0 ps rep fuel rest
      | Option.none => c :: ciReplaceGo p0 ps rep fuel r
    else c :: ciReplaceGo p0 ps rep fuel r

def ciReplace (p0 : Char) (ps rep : List Char) (l : List Char) : List Char :=
  ciReplaceGo p0 ps rep l.length l

/-- Any fuel at least the input length gives the same scan result. -/
theorem ciReplaceGo_mono (p0 : Char) (ps rep : List Char) :
    ∀ (fuel fuel' : Nat) (l : List Char), l.length ≤ fuel →
      l.length ≤ fuel' →
      ciReplaceGo p0 ps rep fuel l = ciReplaceGo p0 ps rep fuel' l := by
  intro fuel
  induction fuel with
  | zero =>
    intro fuel' l hl hl'
    have hnil : l = [] := List.length_eq_zero.mp (Nat.le_zero.mp hl)
    subst hnil
    cases fuel' <;> rfl
  | succ f ih =>
    intro fuel' l hl hl'
    match l with
    | [] => cases fuel' <;> rfl
    | c :: r =>
      match fuel' with
      | 0 => simp at hl'
      | f' + 1 =>
        simp only [List.length_cons] at hl hl'
        simp only [ciReplaceGo]
        by_cases hc : p0.toLower = c.toLower
        · rw [if_pos hc, if_pos hc]
          cases hm : ciMatch ps r with
          | some rest =>
            have hr := ciMatch_len ps r rest hm
            dsimp only
            rw [ih f' rest (by omega) (by omega)]
          | none =>
            dsimp only
            rw [ih f' r (by omega) (by omega)]
        · rw [if_neg hc, if_neg hc]
          rw [ih f' r (by omega) (by omega)]

/-- The scanner passes over a head character that cannot start a match. -/
theorem ciReplace_cons_skip (p0 : Char) (ps rep : List Char) (c : Char)
    (r : List Char) (h : ¬ p0.toLower = c.toLower) :
    ciReplace p0 ps rep (c :: r) = c :: ciReplace p0 ps rep r := by
  simp [ciReplace, List.length_cons, ciReplaceGo, h]

/-- The scanner passes over a whole pattern-free prefix unchanged. -/
theorem ciReplace_skip (p0 : Char) (ps rep : List Char) :
    ∀ (l1 l2 : List Char), (∀ c ∈ l1, ¬ p0.toLower = c.toLower) →
      ciReplace p0 ps rep (l1 ++ l2) = l1 ++ ciReplace p0 ps rep l2 := by
  intro l1
  induction l1 with
  | nil => intro l2 h; rfl
  | cons c r ih =>
    intro l2 h
    rw [List.cons_append, ciReplace_cons_skip p0 ps rep c _ (h c (by simp))]
    rw [ih l2 fun x hx => h x (by simp [hx])]
    rfl

/-- The scanner replaces a case-insensitive occurrence at the head. -/
theorem ciReplace_cons_match (p0 : Char) (ps rep : List Char) (c : Char)
    (r rest : List Char) (hc : p0.toLower = c.toLower)
    (hm : ciMatch ps r = some rest) :
    ciReplace p0 ps rep (c :: r) = rep ++ ciReplace p0 ps rep rest := by
  have hlen := ciMatch_len ps r rest hm
  show ciReplaceGo p0 ps rep (c :: r).length (c :: r) = _
  simp only [List.length_cons, ciReplaceGo, if_pos hc, hm]
  rw [ciReplaceGo_mono p0 ps rep r.length rest.length rest hlen (le_refl _)]
  rfl

/-- The head character matches the pattern head but the tail does not
complete the pattern: the head is emitted and the scan continues. -/
theorem ciReplace_cons_nomatch (p0 : Char) (ps rep : List Char) (c : Char)
    (r : List Char) (hc : p0.toLower = c.toLower)
    (hm : ciMatch ps r = Option.none) :
    ciReplace p0 ps rep (c :: r) = c :: ciReplace p0 ps rep r := by
  show ciReplaceGo p0 ps rep (c :: r).length (c :: r) = _
  simp only [List.length_cons, ciReplaceGo, if_pos hc, hm]
  rfl

/-- The two keyword-unquoting passes of query.ts `orderBy`:
`.replace(/'DESC'/gi, "DESC").replace(/'ASC'/gi, "ASC")`. -/
def unquoteOrderKeywords (s : String) : String :=
  String.mk (ciReplace '\'' "ASC'".data "ASC".data
    (ciReplace '\'' "DESC'".data "DESC".data s.data))

/-- query.ts `orderBy(tpl, values?)`: format when values are supplied, then
store `ORDER BY <text>` with quoted DESC/ASC literals rewritten to bare
keywords. -/
def qOrderBy (d : BuilderData) (tpl : String) (args : FmtArgs := .none) : QRes :=
  let fmt : Except String String :=
    match args with
    | .none => .ok tpl
    | a => formatTpl tpl a
  match fmt with
  | .error m => .error (m, d)
  | .ok ofs =>
    .ok { d with orderFields := ofs,
                 orderBy := unquoteOrderKeywords ("ORDER BY " ++ ofs) }

/-- query.ts `groupBy(...fields)`. -/
def qGroupBy (d : BuilderData) (fields : List String) : QRes :=
  if fields.length = 0 then .error ("groupBy expected one or more fields", d)
  else .ok { d with groupBy := "GROUP BY " ++
    String.intercalate ", " (formatFields "" fields) }

/-- query.ts `having(tpl, values?)`: requires a prior `groupBy` and appends
to the stored group-by text. -/
def qHaving (d : BuilderData) (tpl : String) (args : FmtArgs := .none) : QRes :=
  if d.groupBy.length = 0 then .error ("please call groupBy() firstly", d)
  else
    let fmt : Except String String :=
      match args with
      | .none => .ok tpl
      | a => formatTpl tpl a
    match fmt with
    | .error m => .error (m, d)
    | .ok s => .ok { d with groupBy := d.groupBy ++ " HAVING " ++ s }

/-- query.ts `offset(rows)` (also `skip`). -/
def qOffset (d : BuilderData) (rows : Int) : QRes :=
  if rows < 0 then .error ("rows must be >= 0", d)
  else
    let d1 := { d with offsetRows := rows }
    .ok { d1 with limit := sqlLimitString d1.offsetRows d1.limitRows }

/-- query.ts `skip(rows)`. -/
def qSkip (d : BuilderData) (rows : Int) : QRes := qOffset d rows

/-- query.ts `limit(rows)`. -/
def qLimit (d : BuilderData) (rows : Int) : QRes :=
  if rows < 0 then .error ("rows must be >= 0", d)
  else
    let d1 := { d with limitRows := rows }
    .ok { d1 with limit := sqlLimitString d1.offsetRows d1.limitRows }

/-- The SELECT / SELECT DISTINCT join rendering of query.ts `build`: fold
the join entries, extending the join-clause list and the field list. -/
def buildJoinStep (mapTableToAlias : List (String × String))
    (acc : List String × List String) (item : JoinEntry) :
    List String × List String :=
  let t := sqlEscapeId item.table
  let a0 := if item.aliasName ≠ "" then item.aliasName
            else (lookupTruthy mapTableToAlias item.table).getD ""
  let astr := if a0 ≠ "" then sqlEscapeId a0 else t
  let s1 := if a0 ≠ "" then item.type ++ " " ++ t ++ " AS " ++ sqlEscapeId a0
            else item.type ++ " " ++ t
  let s2 := if item.onCond ≠ "" then s1 ++ " ON " ++ item.onCond else s1
  (acc.1 ++ [s2], acc.2 ++ formatFields astr item.fields)

/-- query.ts `build()`.  The method mutates `_data` while rendering: the
condition list is trimmed and filtered in place, and for SELECT types the
field list is rewritten (prefixed, join fields appended, `*` defaulted);
the returned pair carries the rendered SQL and the mutated state. -/
def build (d0 : BuilderData) : Except (String × BuilderData) (String × BuilderData) :=
  let conds := (d0.conditions.map jsTrim).filter fun v => v ≠ ""
  let d := { d0 with conditions := conds }
  let whereStr := if conds.length > 0 then
    "WHERE " ++ String.intercalate " AND " conds else ""
  if h : d.tableName.getD "" = "" then .error ("missing table name", d)
  else
    let te := d.tableNameEscaped.getD ""
    let tn := d.tableName.getD ""
    if d.type = "SELECT" ∨ d.type = "SELECT DISTINCT" then
      let start : List String × List String :=
        if d.joinTables.length > 0 then
          match lookupTruthy d.mapTableToAlias tn with
          | some al =>
            (["AS " ++ sqlEscapeId al], formatFields (sqlEscapeId al) d.fields)
          | Option.none => ([], formatFields te d.fields)
        else ([], formatFields "" d.fields)
      let folded :=
        if d.joinTables.length > 0 then
          d.joinTables.foldl (buildJoinStep d.mapTableToAlias) start
        else start
      let f2 := if folded.2.length = 0 then ["*"] else folded.2
      let tail := joinMultiString
        (folded.1 ++ [whereStr, d.groupBy, d.orderBy, d.limit])
      let sql := d.type ++ " " ++ String.intercalate ", " f2 ++
        " FROM " ++ te ++ " " ++ tail
      .ok (jsTrim sql, { d with fields := f2 })
    else if d.type = "INSERT" then
      .ok (jsTrim ("INSERT INTO " ++ te ++ " " ++ d.insert), d)
    else if d.type = "UPDATE" then
      if d.update.length = 0 then .error ("update data connot be empty", d)
      else
        let tail := joinMultiString [whereStr, d.orderBy, d.limit]
        .ok (jsTrim ("UPDATE " ++ te ++ " SET " ++
          String.intercalate ", " d.update ++ " " ++ tail), d)
    else if d.type = "INSERT_OR_UPDATE" then
      if d.update.length = 0 then .error ("update data connot be empty", d)
      else
        .ok (jsTrim ("INSERT INTO " ++ te ++ " " ++ d.insert ++
          " ON DUPLICATE KEY UPDATE " ++ String.intercalate ", " d.update), d)
    else if d.type = "DELETE" then
      let tail := joinMultiString [whereStr, d.orderBy, d.limit]
      .ok (jsTrim ("DELETE FROM " ++ te ++ " " ++ tail), d)
    else if d.type = "CUSTOM" then
      let macros : List (String × JsVal) :=
        [("$table", .str te), ("$orderBy", .str d.orderBy),
         ("$limit", .str d.limit),
         ("$fields", .str (String.intercalate ", " d.fields)),
         ("$skipRows", .num d.offsetRows), ("$offsetRows", .num d.offsetRows),
         ("$limitRows", .num d.limitRows)]
      match sqlFormatObject d.sqlTpl macros true with
      | .error m => .error (m, d)
      | .ok s1 =>
        match sqlFormat s1 d.sqlValues with
        | .error m => .error (m, d)
        | .ok s2 => .ok (jsTrim s2, { d with sql := s2 })
    else .error ("invalid query type \"" ++ d.type ++ "\"", d)

/-! ## Object store model

`QueryBuilder` instances are mutable objects.  To reason about sharing
between instances (claim C3), builders are addressed by instance ids in a
store mapping every id to its `_data` value.  This granularity is faithful
because every piece of mutable builder state lives inside the instance's
own `_data` record, and `clone()` replaces the clone's entire `_data` with
`utils.deepCopy(this._data)` — a `JSON.parse(JSON.stringify(...))` round
trip, which returns a structure sharing no object whatsoever with the
original.  In the value semantics of the embedding such an unshared copy
is exactly the copied value. -/

/-- utils.ts `deepCopy` at the granularity of a whole `_data` record: the
JSON round trip yields an equal value that shares nothing with its
source. -/
def deepCopy (d : BuilderData) : BuilderData := d

/-- query.ts `clone()` produces a fresh instance whose `_data` is
`deepCopy` of the source's. -/
def cloneData (d : BuilderData) : BuilderData := deepCopy d

/-- Every mutating method of `QueryBuilder` as one reified call. -/
inductive Op where
  | tableOp (name : String)
  | asOp (name : String)
  | onOp (cond : String) (args : FmtArgs)
  | joinOp (table : String) (fields : List String)
  | leftJoinOp (table : String) (fields : List String)
  | rightJoinOp (table : String) (fields : List String)
  | whereOp (cond : WhereArg)
  | andOp (cond : WhereArg)
  | selectOp (fields : List String)
  | fieldsOp (fields : List String)
  | selectDistinctOp (fields : List String)
  | countOp (name field : String)
  | updateOp (arg : UpdateArg)
  | setOp (arg : SetArg)
  | insertOp (arg : InsertArg)
  | deleteOp
  | onDupOp
  | sqlOp (tpl : String) (args : FmtArgs)
  | orderByOp (tpl : String) (args : FmtArgs)
  | groupByOp (fields : List String)
  | havingOp (tpl : String) (args : FmtArgs)
  | offsetOp (rows : Int)
  | skipOp (rows : Int)
  | limitOp (rows : Int)
  | buildOp

/-- The `_data` value a call leaves behind: the new state on success, the
state carried by the throw on failure. -/
def keepSt : QRes → BuilderData
  | .ok d1 => d1
  | .error p => p.2

/-- Run one call against a builder's `_data`: a successful call installs
the new state, a throwing call leaves the state the throw produced (the
partially mutated record). -/
def runOp (op : Op) (d : BuilderData) : BuilderData :=
  let keep : QRes → BuilderData := keepSt
  match op with
  | .tableOp n => keep (qTable d n)
  | .asOp n => keep (qAs d n)
  | .onOp c a => keep (qOn d c a)
  | .joinOp t fs => keep (qJoin d t fs)
  | .leftJoinOp t fs => keep (qLeftJoin d t fs)
  | .rightJoinOp t fs => keep (qRightJoin d t fs)
  | .whereOp c => keep (qWhere d c)
  | .andOp c => keep (qAnd d c)
  | .selectOp fs => keep (qSelect d fs)
  | .fieldsOp fs => keep (qFields d fs)
  | .selectDistinctOp fs => keep (qSelectDistinct d fs)
  | .countOp n f => keep (qCount d n f)
  | .updateOp a => keep (qUpdate d a)
  | .setOp a => keep (qSet d a)
  | .insertOp a => keep (qInsert d a)
  | .deleteOp => keep (qDelete d)
  | .onDupOp => keep (qOnDuplicateKeyUpdate d)
  | .sqlOp t a => keep (qSql d t a)
  | .orderByOp t a => keep (qOrderBy d t a)
  | .groupByOp fs => keep (qGroupBy d fs)
  | .havingOp t a => keep (qHaving d t a)
  | .offsetOp n => keep (qOffset d n)
  | .skipOp n => keep (qSkip d n)
  | .limitOp n => keep (qLimit d n)
  | .buildOp =>
    match build d with
    | .ok p => p.2
    | .error p => p.2

/-- A store of builder instances, addressed by instance id. -/
def Store := Nat → BuilderData

/-- Apply one reified method call to the instance `i` of the store. -/
def applyAt (s : Store) (i : Nat) (op : Op) : Store :=
  fun k => if k = i then runOp op (s i) else s k

/-- Run a program: a sequence of method calls, each aimed at one
instance. -/
def execProg (s : Store) : List (Nat × Op) → Store
  | [] => s
  | e :: rest => execProg (applyAt s e.1 e.2) rest

/-- query.ts `clone()` in the store: allocate `dst` holding a deep copy of
`src`'s `_data`. -/
def cloneAt (s : Store) (src dst : Nat) : Store :=
  fun k => if k = dst then cloneData (s src) else s k

/-- The always-empty fresh store used to instantiate store theorems. -/
def constStore : Store := fun _ => {}

/-! ## General lemmas -/

theorem exec_untouched :
    ∀ (prog : List (Nat × Op)) (s : Store) (i : Nat),
      (∀ e ∈ prog, e.1 ≠ i) → execProg s prog i = s i := by
  intro prog
  induction prog with
  | nil => intro s i _; rfl
  | cons e rest ih =>
    intro s i h
    have h1 : e.1 ≠ i := h e (by simp)
    have h2 : ∀ x ∈ rest, x.1 ≠ i := fun x hx => h x (by simp [hx])
    show execProg (applyAt s e.1 e.2) rest i = s i
    rw [ih _ _ h2]
    simp [applyAt, Ne.symm h1]

/-! ## Claim C3 — clone independence -/

/-- C3: after `c = b.clone()`, any sequence of mutating calls aimed at the
clone leaves the original's `build()` output unchanged, and any sequence
aimed at the original leaves the clone's `build()` output unchanged: the
two instances share no mutable state. -/
theorem clone_independence (s : Store) (b j : Nat) (prog : List (Nat × Op))
    (hbj : b ≠ j) :
    ((∀ e ∈ prog, e.1 = j) →
      build (execProg (cloneAt s b j) prog b) = build (s b)) ∧
    ((∀ e ∈ prog, e.1 = b) →
      build (execProg (cloneAt s b j) prog j) = build (cloneData (s b))) := by
  constructor
  · intro h
    have hu : execProg (cloneAt s b j) prog b = cloneAt s b j b :=
      exec_untouched prog _ b fun e he => by rw [h e he]; exact Ne.symm hbj
    rw [hu]
    simp [cloneAt, hbj]
  · intro h
    have hu : execProg (cloneAt s b j) prog j = cloneAt s b j j :=
      exec_untouched prog _ j fun e he => by rw [h e he]; exact hbj
    rw [hu]
    simp [cloneAt]

/-- Witness for C3 at a concrete store, ids and program. -/
theorem clone_independence_witness :
    build (execProg (cloneAt constStore 0 1)
      [(1, Op.limitOp 5), (1, Op.selectOp ["a"])] 0) = build (constStore 0) :=
  (clone_independence constStore 0 1 [(1, Op.limitOp 5), (1, Op.selectOp ["a"])]
    (by decide)).1
    (by
      intro e he
      simp only [List.mem_cons, List.not_mem_nil, or_false] at he
      rcases he with rfl | rfl <;> rfl)

/-! ## Claim C7 — empty-list guards of the `$in` / `$notIn` operators -/

/-- Whether a value satisfies the `$in`/`$notIn` shape test of
`sqlConditionStrings` (a builder or an array). -/
def isArrOrBuilder : JsVal → Bool
  | .arr _ => true
  | .builder _ => true
  | _ => false

/-- C7: `{f: {$in: []}}` compiles to exactly the annotated always-false
fragment and `{f: {$notIn: []}}` to the annotated always-true fragment; a
non-empty array renders the comma-joined escaped element list, and a value
that is neither an array nor a builder is a hard error. -/
theorem in_notIn_compilation (f : String) :
    sqlConditionStrings [(f, .obj [("$in", .arr [])])] =
      .ok ["0 /* empty list warn: " ++ sqlEscapeId f ++ " IN () */"] ∧
    sqlConditionStrings [(f, .obj [("$notIn", .arr [])])] =
      .ok ["1 /* empty list warn: " ++ sqlEscapeId f ++ " NOT IN () */"] ∧
    (∀ x xs, sqlConditionStrings [(f, .obj [("$in", .arr (x :: xs))])] =
      .ok [sqlEscapeId f ++ " IN (" ++
        String.intercalate ", " ((x :: xs).map sqlEscape) ++ ")"]) ∧
    (∀ x xs, sqlConditionStrings [(f, .obj [("$notIn", .arr (x :: xs))])] =
      .ok [sqlEscapeId f ++ " NOT IN (" ++
        String.intercalate ", " ((x :: xs).map sqlEscape) ++ ")"]) ∧
    (∀ v, isArrOrBuilder v = false →
      sqlConditionStrings [(f, .obj [("$in", v)])] =
        .error ("value for condition type $in in field " ++ f ++
          " must be an array")) ∧
    (∀ v, isArrOrBuilder v = false →
      sqlConditionStrings [(f, .obj [("$notIn", v)])] =
        .error ("value for condition type $notIn in field " ++ f ++
          " must be an array")) := by
  refine ⟨?_, ?_, ?_, ?_, ?_, ?_⟩
  · simp [sqlConditionStrings, condField, isPureConditionObject, isDollarKey,
      condOps, condOp, List.mapM, List.mapM.loop, Except.map, Except.bind, bind,
      pure, Except.pure, String.intercalate, List.flatten, String.append_assoc]
  · simp [sqlConditionStrings, condField, isPureConditionObject, isDollarKey,
      condOps, condOp, List.mapM, List.mapM.loop, Except.map, Except.bind, bind,
      pure, Except.pure, String.intercalate, List.flatten, String.append_assoc]
  · intro x xs
    simp [sqlConditionStrings, condField, isPureConditionObject, isDollarKey,
      condOps, condOp, List.mapM, List.mapM.loop, Except.map, Except.bind, bind,
      pure, Except.pure, String.intercalate, List.flatten, String.append_assoc]
  · intro x xs
    simp [sqlConditionStrings, condField, isPureConditionObject, isDollarKey,
      condOps, condOp, List.mapM, List.mapM.loop, Except.map, Except.bind, bind,
      pure, Except.pure, String.intercalate, List.flatten, String.append_assoc]
  · intro v hv
    cases v <;> simp_all [sqlConditionStrings, condField, isPureConditionObject,
      isDollarKey, condOps, condOp, isArrOrBuilder, List.mapM, List.mapM.loop,
      Except.map, Except.bind, bind, pure, Except.pure]
  · intro v hv
    cases v <;> simp_all [sqlConditionStrings, condField, isPureConditionObject,
      isDollarKey, condOps, condOp, isArrOrBuilder, List.mapM, List.mapM.loop,
      Except.map, Except.bind, bind, pure, Except.pure]

/-- Witness for C7 at the field name "a" and concrete values. -/
theorem in_notIn_compilation_witness :
    sqlConditionStrings [("a", .obj [("$in", .arr [])])] =
      .ok ["0 /* empty list warn: " ++ sqlEscapeId "a" ++ " IN () */"] ∧
    sqlConditionStrings [("a", .obj [("$in", .num 5)])] =
      .error ("value for condition type $in in field a must be an array") :=
  ⟨(in_notIn_compilation "a").1,
   (in_notIn_compilation "a").2.2.2.2.1 (.num 5) (by decide)⟩

/-! ## Claim C8 — the query type is write-once

Helper lemmas: every method that is not a type setter leaves `_data.type`
unchanged, whether it succeeds or throws. -/

theorem build_ok_type (d : BuilderData) (p : String × BuilderData)
    (h : build d = .ok p) : p.2.type = d.type := by
  unfold build at h
  dsimp only at h
  repeat' split at h
  all_goals (try cases h)
  all_goals rfl

theorem build_err_type (d : BuilderData) (p : String × BuilderData)
    (h : build d = .error p) : p.2.type = d.type := by
  unfold build at h
  dsimp only at h
  repeat' split at h
  all_goals (try cases h)
  all_goals rfl

theorem qTable_keeps_type (d : BuilderData) (n : String) :
    (keepSt (qTable d n)).type = d.type := by
  cases hq : qTable d n
  all_goals unfold qTable at hq
  all_goals (try dsimp only at hq)
  all_goals repeat' split at hq
  all_goals (try cases hq)
  all_goals rfl

theorem qAs_keeps_type (d : BuilderData) (n : String) :
    (keepSt (qAs d n)).type = d.type := by
  unfold qAs setTableAlias
  dsimp only
  by_cases h : (List.lookup n d.mapAliasToTable).isSome = true
  · rw [if_pos h]; rfl
  · rw [if_neg h]
    dsimp only [Except.map, keepSt]
    split
    all_goals rfl

theorem qOn_keeps_type (d : BuilderData) (c : String) (a : FmtArgs) :
    (keepSt (qOn d c a)).type = d.type := by
  cases hq : qOn d c a
  all_goals unfold qOn at hq
  all_goals (try dsimp only at hq)
  all_goals repeat' split at hq
  all_goals (try cases hq)
  all_goals rfl

theorem addJoinTable_keeps_type (d : BuilderData) (t jt : String)
    (fs : List String) : (keepSt (addJoinTable d t jt fs)).type = d.type := by
  cases hq : addJoinTable d t jt fs
  all_goals unfold addJoinTable at hq
  all_goals (try dsimp only at hq)
  all_goals repeat' split at hq
  all_goals (try cases hq)
  all_goals rfl

theorem qAnd_keeps_type (d : BuilderData) (c : WhereArg) :
    (keepSt (qAnd d c)).type = d.type := by
  cases hq : qAnd d c
  all_goals unfold qAnd at hq
  all_goals (try dsimp only at hq)
  all_goals repeat' split at hq
  all_goals (try cases hq)
  all_goals rfl

theorem qFields_keeps_type (d : BuilderData) (fs : List String) :
    (keepSt (qFields d fs)).type = d.type := by
  cases hq : qFields d fs
  all_goals unfold qFields at hq
  all_goals (try dsimp only at hq)
  all_goals repeat' split at hq
  all_goals (try cases hq)
  all_goals rfl

theorem qSet_keeps_type (d : BuilderData) (a : SetArg) :
    (keepSt (qSet d a)).type = d.type := by
  cases hq : qSet d a
  all_goals unfold qSet at hq
  all_goals (try dsimp only at hq)
  all_goals repeat' split at hq
  all_goals (try cases hq)
  all_goals rfl

theorem qOrderBy_keeps_type (d : BuilderData) (t : String) (a : FmtArgs) :
    (keepSt (qOrderBy d t a)).type = d.type := by
  cases hq : qOrderBy d t a
  all_goals unfold qOrderBy at hq
  all_goals (try dsimp only at hq)
  all_goals repeat' split at hq
  all_goals (try cases hq)
  all_goals rfl

theorem qGroupBy_keeps_type (d : BuilderData) (fs : List String) :
    (keepSt (qGroupBy d fs)).type = d.type := by
  cases hq : qGroupBy d fs
  all_goals unfold qGroupBy at hq
  all_goals (try dsimp only at hq)
  all_goals repeat' split at hq
  all_goals (try cases hq)
  all_goals rfl

theorem qHaving_keeps_type (d : BuilderData) (t : String) (a : FmtArgs) :
    (keepSt (qHaving d t a)).type = d.type := by
  cases hq : qHaving d t a
  all_goals unfold qHaving at hq
  all_goals (try dsimp only at hq)
  all_goals repeat' split at hq
  all_goals (try cases hq)
  all_goals rfl

theorem qOffset_keeps_type (d : BuilderData) (n : Int) :
    (keepSt (qOffset d n)).type = d.type := by
  cases hq : qOffset d n
  all_goals unfold qOffset at hq
  all_goals (try dsimp only at hq)
  all_goals repeat' split at hq
  all_goals (try cases hq)
  all_goals rfl

theorem qLimit_keeps_type (d : BuilderData) (n : Int) :
    (keepSt (qLimit d n)).type = d.type := by
  cases hq : qLimit d n
  all_goals unfold qLimit at hq
  all_goals (try dsimp only at hq)
  all_goals repeat' split at hq
  all_goals (try cases hq)
  all_goals rfl

/-- C8: the query type is write-once.  Every type-setting method called on
a builder whose type is already set throws the error naming the current
type; `onDuplicateKeyUpdate` transitions only from INSERT with exactly one
inserted row; and across every reified method call, the type can change
only from the empty (unset) state or through that one
INSERT → INSERT_OR_UPDATE transition. -/
theorem query_type_write_once :
    (∀ (d : BuilderData) (fs : List String), d.type ≠ "" →
      qSelect d fs = .error (cannotChangeMsg d.type, d)) ∧
    (∀ (d : BuilderData) (fs : List String), d.type ≠ "" →
      qSelectDistinct d fs = .error (cannotChangeMsg d.type, d)) ∧
    (∀ (d : BuilderData) (n f : String), d.type ≠ "" →
      qCount d n f = .error (cannotChangeMsg d.type, d)) ∧
    (∀ (d : BuilderData) (a : UpdateArg), d.type ≠ "" →
      qUpdate d a = .error (cannotChangeMsg d.type, d)) ∧
    (∀ (d : BuilderData) (a : InsertArg), d.type ≠ "" →
      qInsert d a = .error (cannotChangeMsg d.type, d)) ∧
    (∀ d : BuilderData, d.type ≠ "" →
      qDelete d = .error (cannotChangeMsg d.type, d)) ∧
    (∀ (d : BuilderData) (t : String) (a : FmtArgs), d.type ≠ "" →
      qSql d t a = .error (cannotChangeMsg d.type, d)) ∧
    (∀ d : BuilderData, d.type ≠ "INSERT" →
      qOnDuplicateKeyUpdate d =
        .error ("onDuplicateKeyUpdate() must be called after insert()", d)) ∧
    (∀ d : BuilderData, d.type = "INSERT" → d.insertRows ≠ 1 →
      qOnDuplicateKeyUpdate d =
        .error (Messages.functionWithWrongRowCount "onDuplicateKeyUpdate"
          d.insertRows, d)) ∧
    (∀ d : BuilderData, d.type = "INSERT" → d.insertRows = 1 →
      qOnDuplicateKeyUpdate d = .ok { d with type := "INSERT_OR_UPDATE" }) ∧
    (∀ (op : Op) (d : BuilderData), (runOp op d).type ≠ d.type →
      d.type = "" ∨ (op = .onDupOp ∧ d.type = "INSERT" ∧ d.insertRows = 1 ∧
        (runOp op d).type = "INSERT_OR_UPDATE")) := by
  refine ⟨?_, ?_, ?_, ?_, ?_, ?_, ?_, ?_, ?_, ?_, ?_⟩
  · intro d fs h; unfold qSelect; rw [if_pos h]
  · intro d fs h; unfold qSelectDistinct; rw [if_pos h]
  · intro d n f h; unfold qCount; rw [if_pos h]
  · intro d a h; unfold qUpdate; rw [if_pos h]
  · intro d a h; unfold qInsert; rw [if_pos h]
  · intro d h; unfold qDelete; rw [if_pos h]
  · intro d t a h; unfold qSql; rw [if_pos h]
  · intro d h; unfold qOnDuplicateKeyUpdate; rw [if_pos h]
  · intro d h1 h2; unfold qOnDuplicateKeyUpdate
    rw [if_neg (by simp [h1]), if_pos h2]
  · intro d h1 h2; unfold qOnDuplicateKeyUpdate
    rw [if_neg (by simp [h1]), if_neg (by simp [h2])]
  · intro op d hchange
    cases op with
    | tableOp n => exact absurd (qTable_keeps_type d n) hchange
    | asOp n => exact absurd (qAs_keeps_type d n) hchange
    | onOp c a => exact absurd (qOn_keeps_type d c a) hchange
    | joinOp t fs => exact absurd (addJoinTable_keeps_type d t "JOIN" fs) hchange
    | leftJoinOp t fs =>
      exact absurd (addJoinTable_keeps_type d t "LEFT JOIN" fs) hchange
    | rightJoinOp t fs =>
      exact absurd (addJoinTable_keeps_type d t "RIGHT JOIN" fs) hchange
    | whereOp c => exact absurd (qAnd_keeps_type d c) hchange
    | andOp c => exact absurd (qAnd_keeps_type d c) hchange
    | selectOp fs =>
      by_cases h : d.type = ""
      · exact Or.inl h
      · refine absurd ?_ hchange
        show (keepSt (qSelect d fs)).type = d.type
        unfold qSelect; rw [if_pos h]; rfl
    | fieldsOp fs => exact absurd (qFields_keeps_type d fs) hchange
    | selectDistinctOp fs =>
      by_cases h : d.type = ""
      · exact Or.inl h
      · refine absurd ?_ hchange
        show (keepSt (qSelectDistinct d fs)).type = d.type
        unfold qSelectDistinct; rw [if_pos h]; rfl
    | countOp n f =>
      by_cases h : d.type = ""
      · exact Or.inl h
      · refine absurd ?_ hchange
        show (keepSt (qCount d n f)).type = d.type
        unfold qCount; rw [if_pos h]; rfl
    | updateOp a =>
      by_cases h : d.type = ""
      · exact Or.inl h
      · refine absurd ?_ hchange
        show (keepSt (qUpdate d a)).type = d.type
        unfold qUpdate; rw [if_pos h]; rfl
    | setOp a => exact absurd (qSet_keeps_type d a) hchange
    | insertOp a =>
      by_cases h : d.type = ""
      · exact Or.inl h
      · refine absurd ?_ hchange
        show (keepSt (qInsert d a)).type = d.type
        unfold qInsert; rw [if_pos h]; rfl
    | deleteOp =>
      by_cases h : d.type = ""
      · exact Or.inl h
      · refine absurd ?_ hchange
        show (keepSt (qDelete d)).type = d.type
        unfold qDelete; rw [if_pos h]; rfl
    | onDupOp =>
      by_cases h1 : d.type = "INSERT"
      · by_cases h2 : d.insertRows = 1
        · refine Or.inr ⟨rfl, h1, h2, ?_⟩
          show (keepSt (qOnDuplicateKeyUpdate d)).type = "INSERT_OR_UPDATE"
          unfold qOnDuplicateKeyUpdate
          rw [if_neg (by simp [h1]), if_neg (by simp [h2])]
          rfl
        · refine absurd ?_ hchange
          show (keepSt (qOnDuplicateKeyUpdate d)).type = d.type
          unfold qOnDuplicateKeyUpdate
          rw [if_neg (by simp [h1]), if_pos h2]
          rfl
      · refine absurd ?_ hchange
        show (keepSt (qOnDuplicateKeyUpdate d)).type = d.type
        unfold qOnDuplicateKeyUpdate; rw [if_pos h1]; rfl
    | sqlOp t a =>
      by_cases h : d.type = ""
      · exact Or.inl h
      · refine absurd ?_ hchange
        show (keepSt (qSql d t a)).type = d.type
        unfold qSql; rw [if_pos h]; rfl
    | orderByOp t a => exact absurd (qOrderBy_keeps_type d t a) hchange
    | groupByOp fs => exact absurd (qGroupBy_keeps_type d fs) hchange
    | havingOp t a => exact absurd (qHaving_keeps_type d t a) hchange
    | offsetOp n => exact absurd (qOffset_keeps_type d n) hchange
    | skipOp n => exact absurd (qOffset_keeps_type d n) hchange
    | limitOp n => exact absurd (qLimit_keeps_type d n) hchange
    | buildOp =>
      refine absurd ?_ hchange
      show (match build d with | .ok p => p.2 | .error p => p.2).type = d.type
      cases hb : build d with
      | ok p => exact build_ok_type d p hb
      | error p => exact build_err_type d p hb

/-- A builder `_data` already in the INSERT state with one inserted row,
used to witness C8. -/
def dInsertOne : BuilderData :=
  { tableName := some "t", tableNameEscaped := some (sqlEscapeId "t"),
    type := "INSERT", insert := "(`a`) VALUES (1)", insertRows := 1 }

/-- Extract the SQL text of a finished `build`, or the error message. -/
def runBuildStr (r : Except (String × BuilderData) (String × BuilderData)) :
    String :=
  match r with
  | .ok p => p.1
  | .error p => "ERROR: " ++ p.1

/-! ## Claim C2 — LIMIT clause text -/

/-- C2 counterexample: an explicit `limit(0)` call with no offset does not
omit the LIMIT clause (as the claim states); it renders the
skip-without-bound sentinel `LIMIT 0,18446744073709551615`. -/
theorem limit_zero_counterexample :
    runBuildStr (qTable {} "t" >>= fun d => qSelect d [] >>= fun d =>
      qLimit d 0 >>= build) =
      "SELECT * FROM `t` LIMIT 0,18446744073709551615" ∧
    "SELECT * FROM `t` LIMIT 0,18446744073709551615" ≠
      "SELECT * FROM `t`" := by
  constructor
  · rfl
  · decide

/-- C2 amended: `offset(o)`/`limit(n)` store the rendered clause for the
final pair (o, n): `LIMIT o,n` when both positive, `LIMIT n` when only the
limit is positive, and `LIMIT o,18446744073709551615` whenever the limit is
not positive — including o = 0.  The clause is omitted from the built
statement only when neither `offset()`/`skip()` nor `limit()` was ever
called (the initial empty clause). -/
theorem limit_clause_text :
    (∀ (d : BuilderData) (o n : Int), 0 ≤ o → 0 ≤ n →
      (qOffset d o >>= fun d1 => qLimit d1 n) =
        .ok { d with offsetRows := o, limitRows := n,
                     limit := sqlLimitString o n }) ∧
    (∀ (d : BuilderData) (o n : Int), 0 ≤ o → 0 ≤ n →
      (qLimit d n >>= fun d1 => qOffset d1 o) =
        .ok { d with offsetRows := o, limitRows := n,
                     limit := sqlLimitString o n }) ∧
    (∀ o n : Int, 0 < n → 0 < o →
      sqlLimitString o n = "LIMIT " ++ toString o ++ "," ++ toString n) ∧
    (∀ o n : Int, 0 < n → ¬ 0 < o →
      sqlLimitString o n = "LIMIT " ++ toString n) ∧
    (∀ o n : Int, ¬ 0 < n →
      sqlLimitString o n =
        "LIMIT " ++ toString o ++ ",18446744073709551615") ∧
    runBuildStr (qTable {} "t" >>= fun d => qSelect d [] >>= build) =
      "SELECT * FROM `t`" ∧
    runBuildStr (qTable {} "t" >>= fun d => qSelect d [] >>= fun d =>
      qOffset d 7 >>= build) =
      "SELECT * FROM `t` LIMIT 7,18446744073709551615" := by
  refine ⟨?_, ?_, ?_, ?_, ?_, rfl, rfl⟩
  · intro d o n ho hn
    unfold qOffset qLimit
    rw [if_neg (by omega)]
    dsimp only
    show Except.bind _ _ = _
    simp only [Except.bind]
    rw [if_neg (by omega)]
  · intro d o n ho hn
    unfold qOffset qLimit
    rw [if_neg (by omega)]
    dsimp only
    show Except.bind _ _ = _
    simp only [Except.bind]
    rw [if_neg (by omega)]
  · intro o n hn ho
    unfold sqlLimitString
    rw [if_pos hn, if_pos ho]
  · intro o n hn ho
    unfold sqlLimitString
    rw [if_pos hn, if_neg ho]
  · intro o n hn
    unfold sqlLimitString
    rw [if_neg hn]

/-- Witness for C2 at concrete offsets and limits. -/
theorem limit_clause_text_witness :
    (qOffset ({} : BuilderData) 3 >>= fun d1 => qLimit d1 4) =
      .ok { ({} : BuilderData) with offsetRows := 3, limitRows := 4,
                                    limit := sqlLimitString 3 4 } ∧
    sqlLimitString 3 4 = "LIMIT " ++ toString (3 : Int) ++ "," ++
      toString (4 : Int) ∧
    sqlLimitString 5 0 = "LIMIT " ++ toString (5 : Int) ++
      ",18446744073709551615" :=
  ⟨limit_clause_text.1 {} 3 4 (by decide) (by decide),
   limit_clause_text.2.2.1 3 4 (by decide) (by decide),
   limit_clause_text.2.2.2.2.1 5 0 (by decide)⟩

/-! ## Claim C4 — empty conditions -/

/-- Extract the error message of a builder method result. -/
def resErrMsg (r : QRes) : String :=
  match r with
  | .error p => p.1
  | .ok _ => "OK"

/-- C4 counterexample: on a SELECT builder the literally-empty condition
string does not succeed — it throws "Missing condition." (the initial
truthiness assert fires before the SELECT exemption is consulted); the
claim's quoted message also differs from the one messages.ts defines. -/
theorem empty_condition_counterexample :
    resErrMsg (match qTable {} "t" >>= fun d => qSelect d [] with
      | .ok d => qWhere d (.strA "" .none)
      | .error p => .error p) = "Missing condition." ∧
    ("Missing condition." : String) ≠ "condition cannot be empty" ∧
    Messages.conditionCannotBeEmpty ≠ "condition cannot be empty" := by
  refine ⟨rfl, by decide, by decide⟩

/-- C4 amended: for non-SELECT types a whitespace-only (but non-empty)
string condition or an empty condition mapping throws
"Condition for modification operation cannot be empty"; the literally
empty string throws "Missing condition." for every query type, SELECT
included; for SELECT, whitespace-only strings and empty mappings are
accepted and `build()` emits no WHERE clause for them. -/
theorem empty_condition_amended :
    (∀ (d : BuilderData) (tpl : String) (args : FmtArgs), d.type ≠ "SELECT" →
      tpl ≠ "" → jsTrim tpl = "" →
      qAnd d (.strA tpl args) = .error (Messages.conditionCannotBeEmpty, d)) ∧
    (∀ d : BuilderData, d.type ≠ "SELECT" →
      qAnd d (.map []) = .error (Messages.conditionCannotBeEmpty, d)) ∧
    (∀ (d : BuilderData) (args : FmtArgs),
      qAnd d (.strA "" args) = .error ("Missing condition.", d)) ∧
    (∀ d : BuilderData, d.type = "SELECT" → qAnd d (.map []) = .ok d) ∧
    (∀ (d : BuilderData) (tpl s : String) (args : FmtArgs),
      d.type = "SELECT" → tpl ≠ "" →
      formatTpl tpl (orEmptyArr args) = .ok s →
      qAnd d (.strA tpl args) =
        .ok { d with conditions := d.conditions ++ [s] }) ∧
    runBuildStr (match qTable {} "t" >>= fun d => qSelect d [] >>= fun d =>
        qWhere d (.strA "   " .none) with
      | .ok d => qWhere d (.map []) >>= build
      | .error p => .error p) = "SELECT * FROM `t`" := by
  refine ⟨?_, ?_, ?_, ?_, ?_, by decide⟩
  · intro d tpl args hty htpl htrim
    unfold qAnd
    dsimp only
    rw [if_neg htpl, if_pos ⟨hty, htrim⟩]
  · intro d hty
    unfold qAnd
    dsimp only
    rw [if_neg (by simp [findKeysForUndefinedValue])]
    rw [if_pos ⟨hty, rfl⟩]
  · intro d args
    unfold qAnd
    dsimp only
    rw [if_pos rfl]
  · intro d hty
    unfold qAnd
    dsimp only
    rw [if_neg (by simp [findKeysForUndefinedValue])]
    rw [if_neg (by simp [hty])]
    simp [sqlConditionStrings, List.mapM, List.mapM.loop, Except.map,
      List.lookup, pure, Except.pure, List.flatten]
  · intro d tpl s args hty htpl hfmt
    unfold qAnd
    dsimp only
    rw [if_neg htpl, if_neg (by simp [hty]), hfmt]

/-- Witness for C4 at a concrete DELETE builder and a SELECT builder. -/
theorem empty_condition_amended_witness :
    qAnd { ({} : BuilderData) with type := "DELETE" } (.strA "   " .none) =
      .error (Messages.conditionCannotBeEmpty,
        { ({} : BuilderData) with type := "DELETE" }) ∧
    qAnd { ({} : BuilderData) with type := "SELECT" } (.map []) =
      .ok { ({} : BuilderData) with type := "SELECT" } ∧
    qAnd { ({} : BuilderData) with type := "SELECT" } (.strA "a=1" .none) =
      .ok { ({} : BuilderData) with type := "SELECT", conditions := ["a=1"] } :=
  ⟨empty_condition_amended.1 _ "   " .none (by decide) (by decide) (by decide),
   empty_condition_amended.2.2.2.1 _ rfl,
   empty_condition_amended.2.2.2.2.1 _ "a=1" "a=1" .none rfl (by decide) rfl⟩

/-! ## Claim C5 — top-level `$raw` extraction -/

/-- Render the text an `Expression` chain would build, or its error. -/
def runExprBuild (r : Except String Expression) : String :=
  match r with
  | .ok e =>
    match exprBuild e with
    | .ok s => s
    | .error m => "ERROR: " ++ m
  | .error m => "ERROR: " ++ m

/-- C5 counterexample: `Expression.and` does not extract a top-level `$raw`
key — the condition compiler renders it as an ordinary field equality
against the escaped identifier `` `$raw` ``, not as a verbatim standalone
fragment. -/
theorem raw_extraction_counterexample :
    runExprBuild (exprAnd {} (.map [("$raw", .str "a > b")])) =
      "(`$raw`='a > b')" ∧
    ("(`$raw`='a > b')" : String) ≠ "(a > b)" := by
  exact ⟨by decide, by decide⟩

/-- C5 amended: only `QueryBuilder.where`/`and` extract a top-level `$raw`
key (pushed verbatim as its own fragment and removed before per-field
compilation); `Expression.and`/`or` pass the mapping unmodified to the
compiler, which renders a top-level `$raw` key as the field-scoped
fragment `` `$raw`=<escaped value> ``. -/
theorem raw_extraction_amended :
    (∀ (d : BuilderData) (fs : List (String × JsVal)) (v : JsVal)
        (l : List String),
      findKeysForUndefinedValue fs = [] →
      fs.lookup "$raw" = some v →
      sqlConditionStrings (fs.filter fun p => p.1 ≠ "$raw") = .ok l →
      qAnd d (.map fs) =
        .ok { d with conditions := d.conditions ++ jsString v :: l }) ∧
    (∀ (e : Expression) (connector s : String), e.eType = "" →
      combineCondition connector (.map [("$raw", .str s)]) e =
        .ok { eType := "condition",
              eData := e.eData ++ " " ++ connector ++ " " ++
                (sqlEscapeId "$raw" ++ "=" ++ escapeString s) }) := by
  constructor
  · intro d fs v l hundef hraw hrest
    have hne : fs ≠ [] := by
      intro hfs; rw [hfs] at hraw; simp [List.lookup] at hraw
    unfold qAnd
    dsimp only
    rw [if_neg (by simp [hundef])]
    rw [if_neg (by
      rintro ⟨-, hlen⟩
      exact hne (List.length_eq_zero.mp hlen))]
    rw [hraw]
    dsimp only
    rw [hrest]
    simp [List.append_assoc]
  · intro e connector s hty
    unfold combineCondition
    rw [if_neg (by simp [hty])]
    dsimp only
    simp only [findKeysForUndefinedValue, isUndefVal, List.filter, List.map]
    rw [if_neg (by simp)]
    simp [sqlConditionStrings, condField, isPureConditionObject, isDollarKey,
      condOps, condOp, List.mapM, List.mapM.loop, Except.map, Except.bind, bind,
      pure, Except.pure, String.intercalate, String.intercalate.go, List.flatten,
      sqlEscape, escapeVal, String.append_assoc]

/-- Witness for C5 at a concrete builder condition mapping. -/
theorem raw_extraction_amended_witness :
    qAnd { ({} : BuilderData) with type := "SELECT" }
      (.map [("a", .num 123), ("$raw", .str "a > b")]) =
      .ok { ({} : BuilderData) with
            type := "SELECT",
            conditions := ["a > b", "`a`=123"] } ∧
    combineCondition "AND" (.map [("$raw", .str "x")]) ({} : Expression) =
      .ok { eType := "condition",
            eData := "" ++ " " ++ "AND" ++ " " ++
              (sqlEscapeId "$raw" ++ "=" ++ escapeString "x") } := by
  constructor
  · have h := raw_extraction_amended.1
      { ({} : BuilderData) with type := "SELECT" }
      [("a", .num 123), ("$raw", .str "a > b")] (.str "a > b") ["`a`=123"]
      rfl rfl rfl
    simpa using h
  · exact raw_extraction_amended.2 ({} : Expression) "AND" "x" rfl

/-! ## Claim C9 — multi-row INSERT column sets -/

/-- C9 counterexample: a later row with extra columns beyond the first
row's column set is accepted silently (the extra column is ignored), so
rows need not share exactly the same column set. -/
theorem insert_extra_column_counterexample :
    runBuildStr (qTable {} "t" >>= fun d =>
      qInsert d (.many [[("a", .num 1)], [("a", .num 2), ("b", .num 3)]]) >>=
        build) = "INSERT INTO `t` (`a`) VALUES (1),\n(2)" ∧
    (["a"] : List String) ≠ ["a", "b"] := by
  exact ⟨by decide, by decide⟩

/-- One row renders when it contains every first-row column. -/
theorem insertRowLine_ok (cols : List String) (item : List (String × JsVal))
    (h : ∀ c ∈ cols, (item.lookup c).isSome) :
    insertRowLine cols item =
      .ok ("(" ++ String.intercalate ", "
        (cols.map fun c => sqlEscape ((item.lookup c).getD .undef)) ++ ")") := by
  unfold insertRowLine
  dsimp only
  have hmap : cols.mapM (fun f =>
      match item.lookup f with
      | some v => Except.ok (sqlEscape v)
      | Option.none =>
        Except.error ("every item of data array must have field \"" ++ f ++
          "\"")) = Except.ok
      (cols.map fun c => sqlEscape ((item.lookup c).getD .undef)) := by
    induction cols with
    | nil => rfl
    | cons c cs ih =>
      have hc := h c (by simp)
      match hl : item.lookup c with
      | some v =>
        rw [List.mapM_cons, hl]
        rw [ih fun x hx => h x (by simp [hx])]
        simp [pure, Except.pure, hl, Except.bind, bind]
      | Option.none => rw [hl] at hc; simp at hc
  rw [hmap]
  rfl

/-- C9 amended: every row after the first must contain (at least) every
column of the first row — a missing column is a hard error naming it — but
extra columns in later rows are silently ignored; the rendered payload
lists the first row's columns once and joins the row tuples with a comma
followed by a newline. -/
theorem insert_rows_amended :
    (∀ (d : BuilderData) (first : List (String × JsVal))
        (rest : List (List (String × JsVal))),
      d.type = "" →
      (∀ r ∈ first :: rest, ∀ c ∈ first.map Prod.fst, (r.lookup c).isSome) →
      qInsert d (.many (first :: rest)) =
        .ok { d with
          type := "INSERT",
          insert := "(" ++
            String.intercalate ", " ((first.map Prod.fst).map sqlEscapeId) ++
            ") VALUES " ++
            String.intercalate ",\n" ((first :: rest).map fun r =>
              "(" ++ String.intercalate ", " ((first.map Prod.fst).map fun c =>
                sqlEscape ((r.lookup c).getD .undef)) ++ ")"),
          insertRows := rest.length + 1 }) ∧
    qInsert { ({} : BuilderData) with
        tableName := some "t",
        tableNameEscaped := some (sqlEscapeId "t") }
      (.many [[("a", .num 1), ("b", .num 2)], [("a", .num 3)]]) =
      .error ("every item of data array must have field \"b\"",
        { ({} : BuilderData) with
          tableName := some "t",
          tableNameEscaped := some (sqlEscapeId "t"), type := "INSERT" }) := by
  constructor
  · intro d first rest hty hall
    unfold qInsert
    rw [if_neg (by simp [hty])]
    dsimp only
    have hmm : (first :: rest).mapM (insertRowLine (first.map Prod.fst)) =
        Except.ok ((first :: rest).map fun r =>
          "(" ++ String.intercalate ", " ((first.map Prod.fst).map fun c =>
            sqlEscape ((r.lookup c).getD .undef)) ++ ")") := by
      generalize hls : first :: rest = ls at hall
      clear hls
      induction ls with
      | nil => rfl
      | cons r rs ih =>
        rw [List.mapM_cons, insertRowLine_ok _ _ (hall r (by simp))]
        rw [ih fun x hx => hall x (by simp [hx])]
        simp [pure, Except.pure, Except.bind, bind, Function.comp, List.map_map]
    rw [hmm]
    simp
  · rfl

/-- Witness for C9 at a concrete two-row insert. -/
theorem insert_rows_amended_witness :
    qInsert ({} : BuilderData)
      (.many [[("a", .num 1)], [("b", .num 9), ("a", .num 2)]]) =
      .ok { ({} : BuilderData) with
        type := "INSERT",
        insert := "(" ++ String.intercalate ", "
            ((([("a", JsVal.num 1)].map Prod.fst)).map sqlEscapeId) ++
          ") VALUES " ++ String.intercalate ",\n"
            (([[("a", JsVal.num 1)], [("b", JsVal.num 9), ("a", JsVal.num 2)]]).map
              fun r => "(" ++ String.intercalate ", "
                ((([("a", JsVal.num 1)].map Prod.fst)).map fun c =>
                  sqlEscape ((r.lookup c).getD .undef)) ++ ")"),
        insertRows := 1 + 1 } := by
  have h := insert_rows_amended.1 {} [("a", .num 1)]
    [[("b", .num 9), ("a", .num 2)]] rfl (by decide)
  simpa using h

/-- Witness for C8 at a concrete INSERT-state builder. -/
theorem query_type_write_once_witness :
    qSelect dInsertOne [] = .error (cannotChangeMsg "INSERT", dInsertOne) ∧
    qOnDuplicateKeyUpdate dInsertOne =
      .ok { dInsertOne with type := "INSERT_OR_UPDATE" } ∧
    (dInsertOne.type = "" ∨ ((Op.onDupOp : Op) = .onDupOp ∧
      dInsertOne.type = "INSERT" ∧ dInsertOne.insertRows = 1 ∧
      (runOp .onDupOp dInsertOne).type = "INSERT_OR_UPDATE")) :=
  ⟨query_type_write_once.1 dInsertOne [] (by decide),
   query_type_write_once.2.2.2.2.2.2.2.2.2.1 dInsertOne (by decide) (by decide),
   query_type_write_once.2.2.2.2.2.2.2.2.2.2 Op.onDupOp dInsertOne (by decide)⟩

/-! ## Claim C1 — build() idempotence -/

theorem dropWhile_rdropWhile_self (p : Char → Bool) (l : List Char)
    (h : l.dropWhile p = l) :
    (l.rdropWhile p).dropWhile p = l.rdropWhile p := by
  rw [List.dropWhile_eq_self_iff] at h ⊢
  intro hl
  have hpre : l.rdropWhile p <+: l := List.rdropWhile_prefix p l
  have hlen : 0 < l.length := lt_of_lt_of_le hl hpre.length_le
  have hget := hpre.getElem hl
  simp only [List.get_eq_getElem]
  rw [hget]
  have := h hlen
  simpa using this

theorem jsTrimChars_idem (l : List Char) :
    jsTrimChars (jsTrimChars l) = jsTrimChars l := by
  have heq : ∀ m : List Char, jsTrimChars m =
      (m.dropWhile isJsSpace).rdropWhile isJsSpace := fun m => rfl
  rw [heq, heq]
  have h1 : ((l.dropWhile isJsSpace).rdropWhile isJsSpace).dropWhile
      isJsSpace = (l.dropWhile isJsSpace).rdropWhile isJsSpace :=
    dropWhile_rdropWhile_self isJsSpace (l.dropWhile isJsSpace)
      (List.dropWhile_idempotent _ _)
  rw [h1, List.rdropWhile_idempotent]

theorem jsTrim_idem (s : String) : jsTrim (jsTrim s) = jsTrim s := by
  show String.mk (jsTrimChars (jsTrimChars s.data)) = _
  rw [jsTrimChars_idem]
  rfl

/-- Trimming and dropping empties is idempotent on the condition list. -/
theorem conds_idem (l : List String) :
    (((l.map jsTrim).filter fun v => v ≠ "").map jsTrim).filter
        (fun v => v ≠ "") =
      (l.map jsTrim).filter fun v => v ≠ "" := by
  induction l with
  | nil => rfl
  | cons s r ih =>
    simp only [List.map_cons, List.filter_cons]
    by_cases h : jsTrim s = ""
    · simpa [h] using ih
    · simpa [h, jsTrim_idem] using ih

/-- With an empty prefix, field formatting is idempotent on one field. -/
theorem formatFieldsOne_empty_idem (n : String) :
    formatFieldsOne "" (formatFieldsOne "" n) = formatFieldsOne "" n := by
  have happ : ∀ m : String, ("" : String) ++ m = m := by
    intro m
    cases m with
    | mk d => show String.mk ([] ++ d) = String.mk d; rw [List.nil_append]
  by_cases h1 : n = "*"
  · subst h1; decide
  · by_cases h2 : containsSub (n.data.map Char.toLower) " as ".data
    · have e1 : formatFieldsOne "" n = n := by
        unfold formatFieldsOne
        rw [if_neg h1, if_pos h2]
      rw [e1]
      exact e1
    · by_cases h3 : n.data.head? = some '`'
      · have e1 : formatFieldsOne "" n = n := by
          unfold formatFieldsOne
          rw [if_neg h1, if_neg h2, if_pos h3]
          exact happ n
        rw [e1]
        exact e1
      · have e1 : formatFieldsOne "" n = sqlEscapeId n := by
          unfold formatFieldsOne
          rw [if_neg h1, if_neg h2, if_neg h3]
          exact happ _
        rw [e1]
        have h1' : ¬ sqlEscapeId n = "*" := by
          intro heq
          have := congrArg String.data heq
          simp [sqlEscapeId, escapeIdChars] at this
        unfold formatFieldsOne
        rw [if_neg h1']
        by_cases h2' : containsSub ((sqlEscapeId n).data.map Char.toLower)
            " as ".data
        · rw [if_pos h2']
        · rw [if_neg h2', if_pos (show (sqlEscapeId n).data.head? = some '`'
            from rfl)]
          exact happ _

/-- With an empty prefix, field formatting is idempotent on field lists. -/
theorem formatFields_empty_idem (l : List String) :
    formatFields "" (formatFields "" l) = formatFields "" l := by
  unfold formatFields
  simp [List.map_map, Function.comp, formatFieldsOne_empty_idem]

/-- C1 counterexample: on a SELECT with a joined table and projected join
fields, a second `build()` on the state left by the first returns a
different string — the first build rewrote `_data.fields` in place, so
the second run prefixes the fields again and re-appends the join fields. -/
theorem build_twice_counterexample :
    (qTable {} "h" >>= fun d => qSelect d ["a", "b"] >>= fun d =>
      qLeftJoin d "w" ["z"] >>= fun d => qAs d "B" >>= fun d =>
      qOn d "h.id=B.id" >>= build >>= fun p => build p.2 >>= fun p2 =>
      .ok (p.1, p2.1)) =
      .ok ("SELECT `h`.`a`, `h`.`b`, `B`.`z` FROM `h` LEFT JOIN `w` AS `B` ON h.id=B.id",
        "SELECT `h`.`h`.`a`, `h`.`h`.`b`, `h`.`B`.`z`, `B`.`z` FROM `h` LEFT JOIN `w` AS `B` ON h.id=B.id") ∧
    ("SELECT `h`.`a`, `h`.`b`, `B`.`z` FROM `h` LEFT JOIN `w` AS `B` ON h.id=B.id" : String) ≠
      "SELECT `h`.`h`.`a`, `h`.`h`.`b`, `h`.`B`.`z`, `B`.`z` FROM `h` LEFT JOIN `w` AS `B` ON h.id=B.id" :=
  ⟨rfl, by decide⟩

/-- C1 amended: `build()` mutates the builder state (it trims and filters
the condition list and, for SELECT types, rewrites the field list), so it
is idempotent only on builders without joined tables: if `build` succeeds
on a join-free builder, running it again on the state it left behind
returns the same string and the same state.  With joined tables a second
`build` differs (see the counterexample). -/
theorem build_idempotent_without_joins (d : BuilderData) (s : String)
    (d1 : BuilderData) (hj : d.joinTables = [])
    (h : build d = .ok (s, d1)) : build d1 = .ok (s, d1) := by
  unfold build at h
  dsimp only at h
  simp only [hj, List.length_nil, gt_iff_lt, lt_self_iff_false, if_false] at h
  by_cases htn : d.tableName.getD "" = ""
  · rw [dif_pos htn] at h; cases h
  rw [dif_neg htn] at h
  by_cases hty : d.type = "SELECT" ∨ d.type = "SELECT DISTINCT"
  · rw [if_pos hty] at h
    simp only [Except.ok.injEq, Prod.mk.injEq] at h
    obtain ⟨hs, hd1⟩ := h
    subst hs
    subst hd1
    unfold build
    dsimp only
    rw [conds_idem]
    rw [dif_neg htn]
    simp only [hj, List.length_nil, gt_iff_lt, lt_self_iff_false, if_false]
    rw [if_pos hty]
    by_cases hlen : (formatFields "" d.fields).length = 0
    · rw [if_pos hlen]
      have hstar : formatFields "" ["*"] = ["*"] := rfl
      rw [hstar]
      rw [if_neg (by decide : ¬ ((["*"] : List String).length = 0))]
    · rw [if_neg hlen]
      rw [formatFields_empty_idem]
      rw [if_neg hlen]
  · rw [if_neg hty] at h
    by_cases hins : d.type = "INSERT"
    · rw [if_pos hins] at h
      simp only [Except.ok.injEq, Prod.mk.injEq] at h
      obtain ⟨hs, hd1⟩ := h
      subst hs
      subst hd1
      unfold build
      dsimp only
      rw [conds_idem, dif_neg htn, if_neg hty, if_pos hins]
    · rw [if_neg hins] at h
      by_cases hupd : d.type = "UPDATE"
      · rw [if_pos hupd] at h
        by_cases hup0 : d.update.length = 0
        · rw [if_pos hup0] at h; cases h
        rw [if_neg hup0] at h
        simp only [Except.ok.injEq, Prod.mk.injEq] at h
        obtain ⟨hs, hd1⟩ := h
        subst hs
        subst hd1
        unfold build
        dsimp only
        rw [conds_idem, dif_neg htn, if_neg hty, if_neg hins, if_pos hupd,
          if_neg hup0]
      · rw [if_neg hupd] at h
        by_cases hiou : d.type = "INSERT_OR_UPDATE"
        · rw [if_pos hiou] at h
          by_cases hup0 : d.update.length = 0
          · rw [if_pos hup0] at h; cases h
          rw [if_neg hup0] at h
          simp only [Except.ok.injEq, Prod.mk.injEq] at h
          obtain ⟨hs, hd1⟩ := h
          subst hs
          subst hd1
          unfold build
          dsimp only
          rw [conds_idem, dif_neg htn, if_neg hty, if_neg hins, if_neg hupd,
            if_pos hiou, if_neg hup0]
        · rw [if_neg hiou] at h
          by_cases hdel : d.type = "DELETE"
          · rw [if_pos hdel] at h
            simp only [Except.ok.injEq, Prod.mk.injEq] at h
            obtain ⟨hs, hd1⟩ := h
            subst hs
            subst hd1
            unfold build
            dsimp only
            rw [conds_idem, dif_neg htn, if_neg hty, if_neg hins, if_neg hupd,
              if_neg hiou, if_pos hdel]
          · rw [if_neg hdel] at h
            by_cases hcus : d.type = "CUSTOM"
            · rw [if_pos hcus] at h
              split at h
              · cases h
              rename_i s1 hso
              split at h
              · cases h
              rename_i s2 hsf
              simp only [Except.ok.injEq, Prod.mk.injEq] at h
              obtain ⟨hs, hd1⟩ := h
              subst hs
              subst hd1
              unfold build
              dsimp only
              rw [conds_idem, dif_neg htn, if_neg hty, if_neg hins,
                if_neg hupd, if_neg hiou, if_neg hdel, if_pos hcus, hso]
              dsimp only
              rw [hsf]
            · rw [if_neg hcus] at h
              cases h

/-- Witness for C1 on a concrete join-free SELECT with a noisy condition
list and an unescaped field. -/
theorem build_idempotent_without_joins_witness :
    build { ({} : BuilderData) with
            tableName := some "t",
            tableNameEscaped := some (sqlEscapeId "t"),
            type := "SELECT", fields := ["x"],
            conditions := ["  a=1  ", ""] } =
      .ok ("SELECT `x` FROM `t` WHERE a=1",
        { ({} : BuilderData) with
          tableName := some "t",
          tableNameEscaped := some (sqlEscapeId "t"),
          type := "SELECT", fields := ["`x`"], conditions := ["a=1"] }) ∧
    build { ({} : BuilderData) with
            tableName := some "t",
            tableNameEscaped := some (sqlEscapeId "t"),
            type := "SELECT", fields := ["`x`"], conditions := ["a=1"] } =
      .ok ("SELECT `x` FROM `t` WHERE a=1",
        { ({} : BuilderData) with
          tableName := some "t",
          tableNameEscaped := some (sqlEscapeId "t"),
          type := "SELECT", fields := ["`x`"], conditions := ["a=1"] }) :=
  ⟨rfl, build_idempotent_without_joins
    { ({} : BuilderData) with
      tableName := some "t",
      tableNameEscaped := some (sqlEscapeId "t"),
      type := "SELECT", fields := ["x"],
      conditions := ["  a=1  ", ""] }
    "SELECT `x` FROM `t` WHERE a=1"
    { ({} : BuilderData) with
      tableName := some "t",
      tableNameEscaped := some (sqlEscapeId "t"),
      type := "SELECT", fields := ["`x`"], conditions := ["a=1"] }
    rfl rfl⟩

/-! ## Claim C6 — positional template formatting -/

/-- The first formatting pass copies a placeholder-free prefix. -/
theorem fmt1go_noq :
    ∀ (pre : List Char), (∀ c ∈ pre, c ≠ '?') →
      ∀ (rest : List Char) (vs : List JsVal) (i : Nat),
      fmt1go (pre ++ rest) 0 vs i =
        (fmt1go rest 0 vs i).map fun p => (pre ++ p.1, p.2) := by
  intro pre
  induction pre with
  | nil =>
    intro h rest vs i
    cases hr : fmt1go rest 0 vs i <;> simp [Except.map, hr]
  | cons c t ih =>
    intro h rest vs i
    have hc : ¬ (c = '?') := h c (by simp)
    have h0 : flushRun 0 vs i = .ok ([], vs, i) := rfl
    show fmt1go (c :: (t ++ rest)) 0 vs i = _
    simp only [fmt1go, if_neg hc, h0]
    rw [ih (fun x hx => h x (by simp [hx])) rest vs i]
    cases hr : fmt1go rest 0 vs i <;> simp [Except.map, hr]

/-- Flushing a pending run of three at a non-`?` continuation. -/
theorem fmt1go_run3 (rest : List Char) (hr : rest.head? ≠ some '?')
    (vs : List JsVal) (i : Nat) :
    fmt1go rest 3 vs i =
      match flushRun 3 vs i with
      | .error m => .error m
      | .ok (t, vs2, i2) =>
        (fmt1go rest 0 vs2 i2).map fun p => (t ++ p.1, p.2) := by
  cases rest with
  | nil =>
    cases hf : flushRun 3 vs i with
    | error m => simp [fmt1go, hf, Except.map]
    | ok t =>
      obtain ⟨t1, t2, t3⟩ := t
      have h0 : flushRun 0 t2 t3 = .ok ([], t2, t3) := rfl
      simp [fmt1go, hf, h0, Except.map]
  | cons c r =>
    have hc : ¬ (c = '?') := by
      intro he
      exact hr (by simp [he])
    cases hf : flushRun 3 vs i with
    | error m => simp [fmt1go, if_neg hc, hf]
    | ok t =>
      obtain ⟨t1, t2, t3⟩ := t
      simp only [fmt1go, if_neg hc, hf]
      have h0 : flushRun 0 t2 t3 = .ok ([], t2, t3) := rfl
      rw [h0]
      cases hg : fmt1go r 0 t2 t3 <;> simp [Except.map, hg]

/-- C6 counterexample: a `???`-spliced string is not left verbatim — the
spliced text is re-scanned by the second formatting pass, so a value
`"?"` becomes a placeholder consuming the next value. -/
theorem triple_splice_counterexample :
    sqlFormat "???" [.str "?", .num 1] = .ok "1" ∧
    ("1" : String) ≠ "?" :=
  ⟨rfl, by decide⟩

/-- C6 amended: a maximal run of exactly three `?` consumes the next
positional value, which must be a string or a builder (its text wrapped in
parentheses), anything else raising the dedicated error; the spliced text
is substituted into the template before the second formatting pass (hence
re-scanned — only placeholder-free splices are verbatim); once the values
are exhausted the second pass leaves the remaining text, `?`/`??`
placeholders included, literally; extra unused values are ignored. -/
theorem triple_placeholder_amended :
    (∀ (pre rest : List Char) (s : String) (vs : List JsVal),
      '?' ∉ pre → '?' ∉ s.data → rest.head? ≠ some '?' →
      sqlFormat (String.mk (pre ++ '?' :: '?' :: '?' :: rest))
          (.str s :: vs) =
        sqlFormat (String.mk (pre ++ s.data ++ rest)) vs) ∧
    (∀ (pre rest : List Char) (q : String) (vs : List JsVal),
      '?' ∉ pre → '?' ∉ q.data → rest.head? ≠ some '?' →
      sqlFormat (String.mk (pre ++ '?' :: '?' :: '?' :: rest))
          (.builder q :: vs) =
        sqlFormat (String.mk (pre ++ '(' :: q.data ++ ')' :: rest)) vs) ∧
    (∀ (pre rest : List Char) (v : JsVal) (vs : List JsVal),
      '?' ∉ pre → rest.head? ≠ some '?' →
      (∀ s, v ≠ .str s) → (∀ q, v ≠ .builder q) →
      sqlFormat (String.mk (pre ++ '?' :: '?' :: '?' :: rest)) (v :: vs) =
        .error (msgFmtTriple 0 v)) ∧
    (∀ l : List Char, fmt2 l [] = l) ∧
    sqlFormat "a=? AND b=??" [.num 5] = .ok "a=5 AND b=??" ∧
    sqlFormat "x=?" [.num 1, .num 2] = .ok "x=1" := by
  have hstep : ∀ (rest : List Char) (vs : List JsVal) (i : Nat),
      fmt1go ('?' :: '?' :: '?' :: rest) 0 vs i = fmt1go rest 3 vs i := by
    intro rest vs i
    simp [fmt1go]
  refine ⟨?_, ?_, ?_, fun l => by cases l <;> rfl, rfl, rfl⟩
  · intro pre rest s vs hpre hs hr
    have hpre' : ∀ c ∈ pre, c ≠ '?' := fun c hc he => hpre (he ▸ hc)
    show (fmt1 (pre ++ '?' :: '?' :: '?' :: rest) (.str s :: vs) 0).map _ =
      (fmt1 ((pre ++ s.data ++ rest)) vs 0).map _
    unfold fmt1
    rw [fmt1go_noq pre hpre' ('?' :: '?' :: '?' :: rest) (.str s :: vs) 0]
    rw [hstep, fmt1go_run3 rest hr]
    have hf : flushRun 3 (JsVal.str s :: vs) 0 = .ok (s.data, vs, 0) := by
      simp [flushRun]
    rw [hf]
    rw [List.append_assoc]
    have hpre2 : ∀ c ∈ pre ++ s.data, c ≠ '?' := by
      intro c hc he
      rcases List.mem_append.mp hc with h1 | h2
      · exact hpre' c h1 he
      · exact hs (he ▸ h2)
    rw [← List.append_assoc]
    rw [fmt1go_noq (pre ++ s.data) hpre2 rest vs 0]
    cases hg : fmt1go rest 0 vs 0 <;> simp [Except.map, hg, List.append_assoc]
  · intro pre rest q vs hpre hq hr
    have hpre' : ∀ c ∈ pre, c ≠ '?' := fun c hc he => hpre (he ▸ hc)
    show (fmt1 (pre ++ '?' :: '?' :: '?' :: rest) (.builder q :: vs) 0).map _ =
      (fmt1 ((pre ++ '(' :: q.data ++ ')' :: rest)) vs 0).map _
    unfold fmt1
    rw [fmt1go_noq pre hpre' ('?' :: '?' :: '?' :: rest) (.builder q :: vs) 0]
    rw [hstep, fmt1go_run3 rest hr]
    have hf : flushRun 3 (JsVal.builder q :: vs) 0 =
        .ok ('(' :: (q.data ++ [')']), vs, 0) := by
      simp [flushRun]
    rw [hf]
    have hsplit : pre ++ '(' :: q.data ++ ')' :: rest =
        (pre ++ '(' :: (q.data ++ [')'])) ++ rest := by
      simp [List.append_assoc]
    rw [hsplit]
    have hpre2 : ∀ c ∈ pre ++ '(' :: (q.data ++ [')']), c ≠ '?' := by
      intro c hc he
      rcases List.mem_append.mp hc with h1 | h2
      · exact hpre' c h1 he
      · subst he
        rcases List.mem_cons.mp h2 with h3 | h4
        · cases h3
        · rcases List.mem_append.mp h4 with h5 | h6
          · exact hq h5
          · simp at h6
    rw [fmt1go_noq (pre ++ '(' :: (q.data ++ [')'])) hpre2 rest vs 0]
    cases hg : fmt1go rest 0 vs 0 <;> simp [Except.map, hg, List.append_assoc]
  · intro pre rest v vs hpre hr hns hnb
    have hpre' : ∀ c ∈ pre, c ≠ '?' := fun c hc he => hpre (he ▸ hc)
    show (fmt1 (pre ++ '?' :: '?' :: '?' :: rest) (v :: vs) 0).map _ = _
    unfold fmt1
    rw [fmt1go_noq pre hpre' ('?' :: '?' :: '?' :: rest) (v :: vs) 0]
    rw [hstep, fmt1go_run3 rest hr]
    have hf : flushRun 3 (v :: vs) 0 = .error (msgFmtTriple 0 v) := by
      cases v with
      | str s => exact absurd rfl (hns s)
      | builder q => exact absurd rfl (hnb q)
      | null => simp [flushRun]
      | undef => simp [flushRun]
      | bool b => simp [flushRun]
      | num n => simp [flushRun]
      | arr xs => simp [flushRun]
      | obj fs => simp [flushRun]
    rw [hf]
    rfl

/-- Witness for C6 at concrete templates: a string splice, a builder
splice, a non-string value error, and the exhausted-values pass-through. -/
theorem triple_placeholder_amended_witness :
    sqlFormat (String.mk ("x ".data ++ '?' :: '?' :: '?' :: " y".data))
        [.str "abc"] =
      sqlFormat (String.mk ("x ".data ++ "abc".data ++ " y".data)) [] ∧
    sqlFormat (String.mk ("x ".data ++ '?' :: '?' :: '?' :: " y".data))
        [.builder "S"] =
      sqlFormat (String.mk ("x ".data ++ '(' :: "S".data ++ ')' :: " y".data))
        [] ∧
    sqlFormat (String.mk ("x ".data ++ '?' :: '?' :: '?' :: " y".data))
        [.num 7] =
      .error (msgFmtTriple 0 (.num 7)) ∧
    fmt2 "a=?".data [] = "a=?".data :=
  ⟨triple_placeholder_amended.1 "x ".data " y".data "abc" []
     (by decide) (by decide) (by decide),
   triple_placeholder_amended.2.1 "x ".data " y".data "S" []
     (by decide) (by decide) (by decide),
   triple_placeholder_amended.2.2.1 "x ".data " y".data (.num 7) []
     (by decide) (by decide) (fun s h => nomatch h) (fun q h => nomatch h),
   triple_placeholder_amended.2.2.2.1 "a=?".data⟩

/-! ## Claim C10 — orderBy keyword unquoting -/

/-- Lowercasing maps only the quote character to the quote character. -/
theorem toLower_eq_quote {c : Char} (h : c.toLower = '\'') : c = '\'' := by
  unfold Char.toLower at h
  dsimp only at h
  split at h
  · exfalso
    rename_i hc
    have hv : (Char.ofNat (c.toNat + 32)).toNat = c.toNat + 32 := by
      have hval : (c.toNat + 32).isValidChar := Or.inl (by omega)
      rw [Char.ofNat, dif_pos hval]
      simp [Char.ofNatAux, Char.toNat, UInt32.toNat, BitVec.toNat_ofNatLt]
    rw [h] at hv
    have h39 : ('\'' : Char).toNat = 39 := by decide
    omega
  · exact h

/-- C10: `orderBy` stores the formatted template passed through the two
keyword-unquoting replacements; a single-quoted case-insensitive DESC
(resp. ASC) literal occurring after a quote-free prefix is rewritten to
the bare uppercase keyword with the scan continuing on the remaining
text; concretely, a template parameter `"DESC"` and a user-data value
`"asc"` both render as bare SQL keywords in the stored ORDER BY text. -/
theorem orderby_keyword_rewrite :
    (∀ (d : BuilderData) (tpl : String),
      qOrderBy d tpl .none =
        .ok { d with
              orderFields := tpl,
              orderBy := unquoteOrderKeywords ("ORDER BY " ++ tpl) }) ∧
    (∀ (pre post : List Char) (d e s c : Char),
      '\'' ∉ pre →
      d.toLower = 'd' → e.toLower = 'e' → s.toLower = 's' →
      c.toLower = 'c' →
      unquoteOrderKeywords (String.mk
          (pre ++ '\'' :: d :: e :: s :: c :: '\'' :: post)) =
        String.mk (pre ++ "DESC".data ++
          (unquoteOrderKeywords (String.mk post)).data)) ∧
    (∀ (pre post : List Char) (a s c : Char),
      '\'' ∉ pre →
      a.toLower = 'a' → s.toLower = 's' → c.toLower = 'c' →
      ciMatch "DESC'".data post = Option.none →
      unquoteOrderKeywords (String.mk
          (pre ++ '\'' :: a :: s :: c :: '\'' :: post)) =
        String.mk (pre ++ "ASC".data ++
          (unquoteOrderKeywords (String.mk post)).data)) ∧
    qOrderBy {} "`a` ?" (.pos [.str "DESC"]) =
      .ok { ({} : BuilderData) with
            orderFields := "`a` 'DESC'",
            orderBy := "ORDER BY `a` DESC" } ∧
    qOrderBy {} "FIELD(`a`, ?)" (.pos [.str "asc"]) =
      .ok { ({} : BuilderData) with
            orderFields := "FIELD(`a`, 'asc')",
            orderBy := "ORDER BY FIELD(`a`, ASC)" } := by
  refine ⟨fun d tpl => rfl, ?_, ?_, rfl, rfl⟩
  · intro pre post d e s c hpre hd' he' hs' hc'
    have hskip : ∀ x ∈ pre, ¬ ('\'' : Char).toLower = x.toLower := by
      intro x hx h
      have hx' : x.toLower = '\'' := by
        have hqq : ('\'' : Char).toLower = '\'' := by decide
        rw [hqq] at h
        exact h.symm
      exact hpre (toLower_eq_quote hx' ▸ hx)
    have hm : ciMatch ('D' :: 'E' :: 'S' :: 'C' :: '\'' :: [])
        (d :: e :: s :: c :: '\'' :: post) = some post := by
      have hD : ('D' : Char).toLower = 'd' := by decide
      have hE : ('E' : Char).toLower = 'e' := by decide
      have hS : ('S' : Char).toLower = 's' := by decide
      have hC : ('C' : Char).toLower = 'c' := by decide
      simp [ciMatch, hD, hd', hE, he', hS, hs', hC, hc']
    have h1 : ciReplace '\'' "DESC'".data "DESC".data
        (pre ++ '\'' :: d :: e :: s :: c :: '\'' :: post) =
        (pre ++ "DESC".data) ++
          ciReplace '\'' "DESC'".data "DESC".data post := by
      rw [ciReplace_skip '\'' "DESC'".data "DESC".data pre _ hskip]
      rw [ciReplace_cons_match '\'' "DESC'".data "DESC".data '\''
        (d :: e :: s :: c :: '\'' :: post) post rfl hm]
      rw [List.append_assoc]
    have hskip2 : ∀ x ∈ pre ++ "DESC".data,
        ¬ ('\'' : Char).toLower = x.toLower := by
      intro x hx h
      rcases List.mem_append.mp hx with h1 | h2
      · exact hskip x h1 h
      · have hx' : x.toLower = '\'' := by
          have hqq : ('\'' : Char).toLower = '\'' := by decide
          rw [hqq] at h
          exact h.symm
        have hx2 : x = '\'' := toLower_eq_quote hx'
        subst hx2
        exact absurd h2 (by decide)
    show String.mk (ciReplace '\'' "ASC'".data "ASC".data
        (ciReplace '\'' "DESC'".data "DESC".data
          (pre ++ '\'' :: d :: e :: s :: c :: '\'' :: post))) = _
    rw [h1]
    rw [ciReplace_skip '\'' "ASC'".data "ASC".data
      (pre ++ "DESC".data) _ hskip2]
    simp [unquoteOrderKeywords, List.append_assoc]
  · intro pre post a s c hpre ha' hs' hc' hd0
    have hskip : ∀ x ∈ pre, ¬ ('\'' : Char).toLower = x.toLower := by
      intro x hx h
      have hx' : x.toLower = '\'' := by
        have hqq : ('\'' : Char).toLower = '\'' := by decide
        rw [hqq] at h
        exact h.symm
      exact hpre (toLower_eq_quote hx' ▸ hx)
    have hsa : ¬ ('\'' : Char).toLower = a.toLower := by
      rw [ha']; decide
    have hss : ¬ ('\'' : Char).toLower = s.toLower := by
      rw [hs']; decide
    have hsc : ¬ ('\'' : Char).toLower = c.toLower := by
      rw [hc']; decide
    have hnm : ciMatch "DESC'".data (a :: s :: c :: '\'' :: post) =
        Option.none := by
      have hDa : ¬ (('D' : Char).toLower = a.toLower) := by
        rw [ha']; decide
      show ciMatch ('D' :: 'E' :: 'S' :: 'C' :: '\'' :: []) _ = _
      simp [ciMatch, hDa]
    have h1 : ciReplace '\'' "DESC'".data "DESC".data
        (pre ++ '\'' :: a :: s :: c :: '\'' :: post) =
        pre ++ '\'' :: a :: s :: c :: '\'' ::
          ciReplace '\'' "DESC'".data "DESC".data post := by
      rw [ciReplace_skip '\'' "DESC'".data "DESC".data pre _ hskip]
      rw [ciReplace_cons_nomatch '\'' "DESC'".data "DESC".data '\''
        (a :: s :: c :: '\'' :: post) rfl hnm]
      rw [ciReplace_cons_skip '\'' "DESC'".data "DESC".data a _ hsa]
      rw [ciReplace_cons_skip '\'' "DESC'".data "DESC".data s _ hss]
      rw [ciReplace_cons_skip '\'' "DESC'".data "DESC".data c _ hsc]
      rw [ciReplace_cons_nomatch '\'' "DESC'".data "DESC".data '\''
        post rfl hd0]
    have hmA : ciMatch "ASC'".data (a :: s :: c :: '\'' ::
        ciReplace '\'' "DESC'".data "DESC".data post) =
        some (ciReplace '\'' "DESC'".data "DESC".data post) := by
      have hA : ('A' : Char).toLower = 'a' := by decide
      have hS : ('S' : Char).toLower = 's' := by decide
      have hC : ('C' : Char).toLower = 'c' := by decide
      show ciMatch ('A' :: 'S' :: 'C' :: '\'' :: []) _ = _
      simp [ciMatch, hA, ha', hS, hs', hC, hc']
    show String.mk (ciReplace '\'' "ASC'".data "ASC".data
        (ciReplace '\'' "DESC'".data "DESC".data
          (pre ++ '\'' :: a :: s :: c :: '\'' :: post))) = _
    rw [h1]
    rw [ciReplace_skip '\'' "ASC'".data "ASC".data pre _ hskip]
    rw [ciReplace_cons_match '\'' "ASC'".data "ASC".data '\''
      (a :: s :: c :: '\'' :: ciReplace '\'' "DESC'".data "DESC".data post)
      (ciReplace '\'' "DESC'".data "DESC".data post) rfl hmA]
    simp [unquoteOrderKeywords, List.append_assoc]

/-- Witness for C10 at concrete texts: a mixed-case quoted DESC after a
quote-free prefix, a quoted lowercase ASC, and the no-values call. -/
theorem orderby_keyword_rewrite_witness :
    qOrderBy {} "f" .none =
      .ok { ({} : BuilderData) with
            orderFields := "f",
            orderBy := unquoteOrderKeywords ("ORDER BY " ++ "f") } ∧
    unquoteOrderKeywords (String.mk
        ("`a` ".data ++ '\'' :: 'd' :: 'E' :: 's' :: 'C' :: '\'' ::
          " x".data)) =
      String.mk ("`a` ".data ++ "DESC".data ++
        (unquoteOrderKeywords (String.mk " x".data)).data) ∧
    unquoteOrderKeywords (String.mk
        ("`b` ".data ++ '\'' :: 'a' :: 's' :: 'c' :: '\'' :: [])) =
      String.mk ("`b` ".data ++ "ASC".data ++
        (unquoteOrderKeywords (String.mk [])).data) :=
  ⟨orderby_keyword_rewrite.1 {} "f",
   orderby_keyword_rewrite.2.1 "`a` ".data " x".data 'd' 'E' 's' 'C'
     (by decide) (by decide) (by decide) (by decide) (by decide),
   orderby_keyword_rewrite.2.2.1 "`b` ".data [] 'a' 's' 'c'
     (by decide) (by decide) (by decide) (by decide) (by decide)⟩

end Hadros
